import Mathlib

/-!
Verification development for the clawdbot-feishu inbound/outbound message
pipeline.  The TypeScript sources (`src/outbound.ts` and the renderer file
containing `createCardUpdateController`, `applyVerboseEvent`,
`mergeStreamText`, ...) are shallowly embedded below: pure functions become
Lean functions, host primitives (`JSON.parse`, `RegExp`, `Date.now`, the
event loop) are modelled explicitly, stateful code is explicit state
passing, and fallible code returns `Except`.
-/

set_option maxRecDepth 10000

/-! ## Characters and small JavaScript string helpers -/

/-- The `[` character (written via code point to keep bracket characters out
of character literals). -/
def lbrack : Char := Char.ofNat 91

/-- The `]` character. -/
def rbrack : Char := Char.ofNat 93

/-- The left curly brace character. -/
def lbrace : Char := Char.ofNat 123

/-- The right curly brace character. -/
def rbrace : Char := Char.ofNat 125

/-- JavaScript whitespace (the common members of the `\s` class, as sampled
by `trim`, `\s*` in the regexes of the source, and `/\s+/g`). -/
def jsWhitespace : Char → Bool := fun c =>
  c == ' ' || c == '\t' || c == '\n' || c == '\r' ||
  c == Char.ofNat 11 || c == Char.ofNat 12 || c == Char.ofNat 0xA0 ||
  c == Char.ofNat 0x2028 || c == Char.ofNat 0x2029 || c == Char.ofNat 0xFEFF

/-- ASCII decimal digit, the JavaScript `\d` class. -/
def jsDigit (c : Char) : Bool := '0' ≤ c && c ≤ '9'

/-- `String.prototype.trim`: strip leading and trailing whitespace. -/
def jsTrim (s : String) : String :=
  ⟨((s.data.dropWhile jsWhitespace).reverse.dropWhile jsWhitespace).reverse⟩

/-- Worker for `collapseWs`; the flag records whether the previous character
belonged to a whitespace run (for which a single space was already
emitted). -/
def collapseWsChars : List Char → Bool → List Char
  | [], _ => []
  | c :: cs, inRun =>
    if jsWhitespace c then
      if inRun then collapseWsChars cs true else ' ' :: collapseWsChars cs true
    else c :: collapseWsChars cs false

/-- `replace(/\s+/g, " ")`: every maximal whitespace run becomes one space. -/
def collapseWs (s : String) : String := ⟨collapseWsChars s.data false⟩

/-- `String.prototype.slice(0, n)`. -/
def jsSlice0 (s : String) (n : Nat) : String := ⟨s.data.take n⟩

/-- JavaScript `toLowerCase`, restricted to ASCII letters (the only case
conversion the source relies on). -/
def jsLower (s : String) : String := ⟨s.data.map Char.toLower⟩

/-- Does `pat` occur at the very start of `cs`? -/
def charsStartWith (pat cs : List Char) : Bool := pat.isPrefixOf cs

/-- Does `pat` occur anywhere inside `cs`? -/
def charsContain (pat : List Char) : List Char → Bool
  | [] => pat.isEmpty
  | c :: cs => charsStartWith pat (c :: cs) || charsContain pat cs

/-- Substring containment test, `String.prototype.includes`. -/
def jsIncludes (s pat : String) : Bool := charsContain pat.data s.data

/-! ## JSON values and a model of the host `JSON.parse`

`JSON.parse` is a host primitive; it is modelled by an executable
recursive-descent parser over the character list.  Numbers are restricted
to (signed) integers; fraction and exponent forms are rejected, which
places them in the "malformed" bucket of the model. -/

/-- A parsed JSON value. -/
inductive Json where
  | null : Json
  | bool (b : Bool) : Json
  | num (n : Int) : Json
  | str (s : String) : Json
  | arr (xs : List Json) : Json
  | obj (fields : List (String × Json)) : Json

/-- Skip JSON inter-token whitespace. -/
def jsonSkipWs (cs : List Char) : List Char :=
  cs.dropWhile (fun c => c == ' ' || c == '\t' || c == '\n' || c == '\r')

/-- Parse the body of a JSON string literal (after the opening quote),
returning the decoded characters and the remainder after the closing
quote. -/
def parseJsonStringBody : Nat → List Char → Option (List Char × List Char)
  | 0, _ => none
  | _ + 1, [] => none
  | fuel + 1, c :: cs =>
    if c == '"' then some ([], cs)
    else if c == '\\' then
      match cs with
      | [] => none
      | e :: cs' =>
        let decoded : Option (Char × List Char) :=
          if e == '"' then some ('"', cs')
          else if e == '\\' then some ('\\', cs')
          else if e == '/' then some ('/', cs')
          else if e == 'n' then some ('\n', cs')
          else if e == 't' then some ('\t', cs')
          else if e == 'r' then some ('\r', cs')
          else if e == 'b' then some (Char.ofNat 8, cs')
          else if e == 'f' then some (Char.ofNat 12, cs')
          else if e == 'u' then
            match cs' with
            | h1 :: h2 :: h3 :: h4 :: rest =>
              let hexVal : Char → Option Nat := fun h =>
                if jsDigit h then some (h.toNat - '0'.toNat)
                else if 'a' ≤ h && h ≤ 'f' then some (h.toNat - 'a'.toNat + 10)
                else if 'A' ≤ h && h ≤ 'F' then some (h.toNat - 'A'.toNat + 10)
                else none
              match hexVal h1, hexVal h2, hexVal h3, hexVal h4 with
              | some a, some b, some c3, some d =>
                some (Char.ofNat (((a * 16 + b) * 16 + c3) * 16 + d), rest)
              | _, _, _, _ => none
            | _ => none
          else none
        match decoded with
        | none => none
        | some (ch, rest) =>
          match parseJsonStringBody fuel rest with
          | none => none
          | some (tail, rem) => some (ch :: tail, rem)
    else
      match parseJsonStringBody fuel cs with
      | none => none
      | some (tail, rem) => some (c :: tail, rem)

mutual

/-- Parse a JSON value from `cs` (fuel-indexed recursive descent). -/
def parseJsonVal : Nat → List Char → Option (Json × List Char)
  | 0, _ => none
  | fuel + 1, cs =>
    let cs := jsonSkipWs cs
    match cs with
    | [] => none
    | c :: rest =>
      if c == '"' then
        match parseJsonStringBody (fuel + 1) rest with
        | none => none
        | some (body, rem) => some (.str ⟨body⟩, rem)
      else if c == 't' then
        if charsStartWith ['r', 'u', 'e'] rest then some (.bool true, rest.drop 3) else none
      else if c == 'f' then
        if charsStartWith ['a', 'l', 's', 'e'] rest then some (.bool false, rest.drop 4) else none
      else if c == 'n' then
        if charsStartWith ['u', 'l', 'l'] rest then some (.null, rest.drop 3) else none
      else if c == '-' || jsDigit c then
        let digits := if c == '-' then rest.takeWhile jsDigit else (c :: rest).takeWhile jsDigit
        let rem := if c == '-' then rest.dropWhile jsDigit else (c :: rest).dropWhile jsDigit
        if digits.isEmpty then none
        else
          let n : Nat := digits.foldl (fun acc d => acc * 10 + (d.toNat - '0'.toNat)) 0
          let v : Json := .num (if c == '-' then -(n : Int) else (n : Int))
          match rem with
          | r :: _ => if r == '.' || r == 'e' || r == 'E' then none else some (v, rem)
          | [] => some (v, rem)
      else if c == lbrack then
        parseJsonArrItems fuel rest true
      else if c == lbrace then
        parseJsonObjItems fuel rest true
      else none

/-- Parse array items after `[`; `first` is true before the first element. -/
def parseJsonArrItems : Nat → List Char → Bool → Option (Json × List Char)
  | 0, _, _ => none
  | fuel + 1, cs, first =>
    let cs := jsonSkipWs cs
    match cs with
    | [] => none
    | c :: rest =>
      if c == rbrack then
        if first then some (.arr [], rest) else none
      else
        match parseJsonVal fuel cs with
        | none => none
        | some (v, rem) =>
          match jsonSkipWs rem with
          | ',' :: rem' =>
            match parseJsonArrItems fuel rem' false with
            | some (.arr xs, rem'') => some (.arr (v :: xs), rem'')
            | _ => none
          | c2 :: rem' => if c2 == rbrack then some (.arr [v], rem') else none
          | [] => none

/-- Parse object members after the opening brace. -/
def parseJsonObjItems : Nat → List Char → Bool → Option (Json × List Char)
  | 0, _, _ => none
  | fuel + 1, cs, first =>
    let cs := jsonSkipWs cs
    match cs with
    | [] => none
    | c :: rest =>
      if c == rbrace then
        if first then some (.obj [], rest) else none
      else if c == '"' then
        match parseJsonStringBody (fuel + 1) rest with
        | none => none
        | some (key, rem) =>
          match jsonSkipWs rem with
          | ':' :: rem' =>
            match parseJsonVal fuel rem' with
            | none => none
            | some (v, rem'') =>
              match jsonSkipWs rem'' with
              | ',' :: rem3 =>
                match parseJsonObjItems fuel rem3 false with
                | some (.obj fs, rem4) => some (.obj ((⟨key⟩, v) :: fs), rem4)
                | _ => none
              | c2 :: rem3 => if c2 == rbrace then some (.obj [(⟨key⟩, v)], rem3) else none
              | [] => none
          | _ => none
      else none

end

/-- The host `JSON.parse`, returning `none` where JavaScript would throw a
`SyntaxError` (malformed input). -/
def jsonParse (s : String) : Option Json :=
  match parseJsonVal (s.length + 1) s.data with
  | none => none
  | some (v, rem) => if (jsonSkipWs rem).isEmpty then some v else none

/-! ## JavaScript value semantics on `Json` -/

/-- JavaScript truthiness of a JSON value. -/
def Json.truthy : Json → Bool
  | .null => false
  | .bool b => b
  | .num n => n != 0
  | .str s => !s.isEmpty
  | .arr _ => true
  | .obj _ => true

/-- Truthiness of a possibly-`undefined` value (`none` models `undefined`). -/
def optTruthy : Option Json → Bool
  | none => false
  | some v => v.truthy

/-- JavaScript `||` on possibly-undefined values. -/
def jsOr (a b : Option Json) : Option Json := if optTruthy a then a else b

mutual

/-- JavaScript string coercion (template literals, `+=` on strings). -/
def Json.jsToString : Json → String
  | .null => "null"
  | .bool true => "true"
  | .bool false => "false"
  | .num n => toString n
  | .str s => s
  | .arr xs => String.intercalate "," (jsToStringItems xs)
  | .obj _ => "[object Object]"

/-- Elementwise string coercion inside an array (`Array.prototype.toString`
renders `null` elements as the empty string). -/
def jsToStringItems : List Json → List String
  | [] => []
  | .null :: xs => "" :: jsToStringItems xs
  | x :: xs => Json.jsToString x :: jsToStringItems xs

end

/-- Last-occurrence association lookup (`JSON.parse` keeps the last
duplicate key, and later assignments win). -/
def lookupLast (k : String) : List (String × Json) → Option Json
  | [] => none
  | (k', v) :: fs =>
    match lookupLast k fs with
    | some r => some r
    | none => if k' == k then some v else none

/-- Property access `x.k`.  Reading a property of `null` throws a
`TypeError`; reading a missing property (or a property of a primitive)
yields `undefined` (`none`). -/
def jsGet (j : Json) (k : String) : Except String (Option Json) :=
  match j with
  | .null => .error ("TypeError: cannot read properties of null (reading " ++ k ++ ")")
  | .obj fs => .ok (lookupLast k fs)
  | _ => .ok none

/-- Optional-chaining access `x?.k`: never throws, `undefined` propagates. -/
def jsGetOpt (j : Option Json) (k : String) : Option Json :=
  match j with
  | none => none
  | some .null => none
  | some (.obj fs) => lookupLast k fs
  | some _ => none

/-- `for (const x of v)`: arrays iterate their elements, strings iterate
their characters, anything else throws a `TypeError`. -/
def jsIterate : Json → Except String (List Json)
  | .arr xs => .ok xs
  | .str s => .ok (s.data.map fun c => .str ⟨[c]⟩)
  | _ => .error "TypeError: value is not iterable"

/-- Strict equality of a possibly-undefined value with a string literal
(`x === "lit"`). -/
def jsEqStr (v : Option Json) (s : String) : Bool :=
  match v with
  | some (.str x) => x == s
  | _ => false

/-! ## `parsePostContent` (src/outbound.ts lines 485-523)

Parses a Feishu `post` (rich text) payload, accumulating plain text and
the embedded image keys.  Every failure inside the `try` (malformed JSON,
`TypeError`s from property access or iteration) yields the fixed
placeholder. -/

/-- Coercion used for `x || ""` appended into a template/string: the
string form of the value when truthy, otherwise the empty string. -/
def jsOrToStr (a : Option Json) : String :=
  if optTruthy a then (a.getD .null).jsToString else ""

/-- Process one span of a post paragraph, extending the accumulated text
and image-key list. -/
def postElemStep (element : Json) (acc : String × List Json) :
    Except String (String × List Json) := do
  let tag ← jsGet element "tag"
  if jsEqStr tag "text" then
    let t ← jsGet element "text"
    pure (acc.1 ++ jsOrToStr t, acc.2)
  else if jsEqStr tag "a" then
    let t ← jsGet element "text"
    let h ← jsGet element "href"
    pure (acc.1 ++ jsOrToStr (jsOr t h), acc.2)
  else if jsEqStr tag "at" then
    let un ← jsGet element "user_name"
    let ui ← jsGet element "user_id"
    pure (acc.1 ++ "@" ++ jsOrToStr (jsOr un ui), acc.2)
  else if jsEqStr tag "img" then
    let ik ← jsGet element "image_key"
    if optTruthy ik then pure (acc.1, acc.2 ++ [ik.getD .null]) else pure acc
  else pure acc

/-- Process one paragraph of a post body: only arrays are walked (followed
by a newline); any other paragraph value is skipped. -/
def postParagraphStep (paragraph : Json) (acc : String × List Json) :
    Except String (String × List Json) :=
  match paragraph with
  | .arr elems => do
    let acc' ← elems.foldlM (fun a e => postElemStep e a) acc
    pure (acc'.1 ++ "\n", acc'.2)
  | _ => pure acc

/-- `parsePostContent`: extract plain text and embedded image keys from a
rich-text payload, falling back to the placeholder on any parse failure. -/
def parsePostContent (content : String) : String × List Json :=
  match jsonParse content with
  | none => ("[富文本消息]", [])
  | some parsed =>
    let computed : Except String (String × List Json) := do
      let tv ← jsGet parsed "title"
      let cbv ← jsGet parsed "content"
      let textContent0 := if optTruthy tv then (tv.getD .null).jsToString ++ "\n\n" else ""
      let blocks ← jsIterate ((jsOr cbv (some (.arr []))).getD .null)
      blocks.foldlM (fun a p => postParagraphStep p a) (textContent0, [])
    match computed with
    | .error _ => ("[富文本消息]", [])
    | .ok (text, keys) =>
      let trimmed := jsTrim text
      (if trimmed.isEmpty then "[富文本消息]" else trimmed, keys)

/-- C6.  `parsePostContent` on
`{"title":"T","content":[[{"tag":"text","text":"hello"}]]}` yields the
plaintext `"T\n\nhello"` (and no image keys), and on every malformed
(non-JSON) input it returns the placeholder `"[富文本消息]"` with no image
keys — the fallback path of the `try`/`catch`, so nothing is thrown. -/
theorem parsePostContent_spec :
    parsePostContent
        "\x7b\"title\":\"T\",\"content\":[[\x7b\"tag\":\"text\",\"text\":\"hello\"\x7d]]\x7d" =
      ("T\n\nhello", []) ∧
    ∀ s : String, jsonParse s = none → parsePostContent s = ("[富文本消息]", []) := by
  refine ⟨rfl, fun s h => ?_⟩
  simp [parsePostContent, h]

/-- Witness for C6: the malformed input `"not json"` takes the placeholder
branch. -/
theorem parsePostContent_spec_witness :
    jsonParse "not json" = none ∧ parsePostContent "not json" = ("[富文本消息]", []) :=
  ⟨rfl, parsePostContent_spec.2 "not json" rfl⟩

/-! ## `extractHistoryCount` (src/outbound.ts lines 157-179)

The source tries seven regular expressions in order; each is of the shape
"optional literal, `\s*`, `(\d+)`, `\s*`, optional literal" (two of them
case-insensitive).  The host regex engine is modelled by a deterministic
leftmost matcher, which agrees with the backtracking engine on these
patterns because the digit class, the whitespace class and the literals
are pairwise disjoint at the boundaries. -/

/-- One history-count pattern: optional leading literal, captured digit
run, optional trailing literal, case-insensitivity flag. -/
structure CountPat where
  pre : Option String
  post : Option String
  ci : Bool

/-- Match a literal at the head of `cs`, honouring case-insensitivity. -/
def matchLit (lit : String) (ci : Bool) (cs : List Char) : Option (List Char) :=
  let seg := cs.take lit.data.length
  let same := if ci then seg.map Char.toLower == lit.data.map Char.toLower
              else seg == lit.data
  if seg.length == lit.data.length && same then some (cs.drop lit.data.length) else none

/-- Try to match a count pattern anchored at the head of `cs`, returning
the captured number (`parseInt` of the digit run). -/
def matchCountPatAt (p : CountPat) (cs : List Char) : Option Nat := do
  let cs1 ← match p.pre with
    | some l => matchLit l p.ci cs
    | none => some cs
  let cs2 := if p.pre.isSome then cs1.dropWhile jsWhitespace else cs1
  let digits := cs2.takeWhile jsDigit
  if digits.isEmpty then none
  else
    let n : Nat := digits.foldl (fun acc d => acc * 10 + (d.toNat - '0'.toNat)) 0
    match p.post with
    | none => some n
    | some l =>
      let cs3 := (cs2.dropWhile jsDigit).dropWhile jsWhitespace
      (matchLit l p.ci cs3).map fun _ => n

/-- Leftmost match of a count pattern anywhere in `cs` (the semantics of
`String.prototype.match` with a non-global regex). -/
def matchCountPat (p : CountPat) : List Char → Option Nat
  | [] => matchCountPatAt p []
  | c :: cs =>
    match matchCountPatAt p (c :: cs) with
    | some n => some n
    | none => matchCountPat p cs

/-- The seven patterns of `extractHistoryCount`, in source order. -/
def countPatterns : List CountPat :=
  [⟨some "最近", some "条", false⟩,
   ⟨none, some "条消息", false⟩,
   ⟨none, some "条记录", false⟩,
   ⟨some "last", none, true⟩,
   ⟨none, some "messages", true⟩,
   ⟨some "获取", none, false⟩,
   ⟨some "读取", none, false⟩]

/-- The pattern loop: the first pattern whose captured number lies in
`(0, 1000]` wins; an out-of-range capture falls through to the next
pattern; exhaustion yields the default 200. -/
def extractHistoryCountLoop : List CountPat → List Char → Nat
  | [], _ => 200
  | p :: ps, cs =>
    match matchCountPat p cs with
    | some num => if 0 < num && num ≤ 1000 then num else extractHistoryCountLoop ps cs
    | none => extractHistoryCountLoop ps cs

/-- `extractHistoryCount`: requested message count, defaulting to 200. -/
def extractHistoryCount (content : String) : Nat :=
  extractHistoryCountLoop countPatterns content.data

/-- Helper: when no pattern matches at all, the loop returns the
default. -/
theorem extractHistoryCountLoop_default (cs : List Char) :
    ∀ ps : List CountPat, (∀ p ∈ ps, matchCountPat p cs = none) →
      extractHistoryCountLoop ps cs = 200 := by
  intro ps
  induction ps with
  | nil => intro _; rfl
  | cons p ps ih =>
    intro h
    have hp := h p (List.mem_cons_self p ps)
    have hrest : ∀ q ∈ ps, matchCountPat q cs = none := fun q hq => h q (List.mem_cons_of_mem p hq)
    simp [extractHistoryCountLoop, hp, ih hrest]

/-- C7.  `extractHistoryCount` returns the explicit count when it lies in
`[1, 1000]` (`"最近 50 条"` yields 50), returns the default 200 when no
pattern matches, and ignores an out-of-range count (`"2000 messages"`
falls back to 200). -/
theorem extractHistoryCount_spec :
    extractHistoryCount "最近 50 条" = 50 ∧
    (∀ s : String, (∀ p ∈ countPatterns, matchCountPat p s.data = none) →
      extractHistoryCount s = 200) ∧
    extractHistoryCount "2000 messages" = 200 := by
  refine ⟨rfl, fun s h => extractHistoryCountLoop_default s.data countPatterns h, rfl⟩

/-- Witness for C7: `"hello there"` contains no count pattern, so the
default branch of the theorem applies to it. -/
theorem extractHistoryCount_spec_witness :
    (∀ p ∈ countPatterns, matchCountPat p "hello there".data = none) ∧
      extractHistoryCount "hello there" = 200 :=
  ⟨by decide, extractHistoryCount_spec.2.1 "hello there" (by decide)⟩

/-! ## `mergeStreamText` (renderer source, lines 252-258)

Accumulates streamed assistant text: keep the longer of two overlapping
drafts, concatenate disjoint ones. -/

/-- `String.prototype.startsWith`: is `pre` a prefix of `s`? -/
def jsStartsWith (s pre : String) : Bool := pre.data.isPrefixOf s.data

/-- `mergeStreamText` from the renderer source. -/
def mergeStreamText (prev next : String) : String :=
  if prev == "" then next
  else if next == "" then prev
  else if jsStartsWith next prev then next
  else if jsStartsWith prev next then prev
  else prev ++ next

/-- `isPrefixOf` gives an explicit suffix. -/
theorem isPrefixOf_exists_append :
    ∀ (l₁ l₂ : List Char), l₁.isPrefixOf l₂ = true → ∃ t, l₂ = l₁ ++ t := by
  intro l₁
  induction l₁ with
  | nil => exact fun l₂ _ => ⟨l₂, rfl⟩
  | cons a as ih =>
    intro l₂ h
    cases l₂ with
    | nil => simp [List.isPrefixOf] at h
    | cons b bs =>
      simp only [List.isPrefixOf, Bool.and_eq_true, beq_iff_eq] at h
      obtain ⟨t, ht⟩ := ih bs h.2
      exact ⟨t, by simp [h.1, ht]⟩

/-- A prefix of the empty list is empty. -/
theorem isPrefixOf_nil_eq (l : List Char) (h : l.isPrefixOf [] = true) : l = [] := by
  cases l with
  | nil => rfl
  | cons a as => simp [List.isPrefixOf] at h

/-- Mutual prefixes coincide. -/
theorem isPrefixOf_antisymm (l₁ l₂ : List Char)
    (h₁ : l₁.isPrefixOf l₂ = true) (h₂ : l₂.isPrefixOf l₁ = true) : l₁ = l₂ := by
  obtain ⟨t, ht⟩ := isPrefixOf_exists_append l₁ l₂ h₁
  obtain ⟨u, hu⟩ := isPrefixOf_exists_append l₂ l₁ h₂
  have e1 : l₂.length = l₁.length + t.length := by simp [ht]
  have e2 : l₁.length = l₂.length + u.length := by simp [hu]
  have hzero : t.length = 0 := by omega
  have ht0 : t = [] := List.length_eq_zero.mp hzero
  simp [ht, ht0]

/-- C10.  For all strings `prev` and `next`, `mergeStreamText prev next`
has `prev` as a prefix (the accumulated draft never loses text); it
returns `next` when `next` extends `prev`, `prev` when `prev` extends
`next`, and the concatenation `prev ++ next` when neither extends the
other. -/
theorem mergeStreamText_spec (prev next : String) :
    (∃ t : String, mergeStreamText prev next = prev ++ t) ∧
    (jsStartsWith next prev = true → mergeStreamText prev next = next) ∧
    (jsStartsWith prev next = true → mergeStreamText prev next = prev) ∧
    (jsStartsWith next prev = false → jsStartsWith prev next = false →
      mergeStreamText prev next = prev ++ next) := by
  unfold mergeStreamText jsStartsWith
  by_cases hp : prev = ""
  · subst hp
    refine ⟨⟨next, by simp [String.empty_append]⟩, ?_, ?_, ?_⟩
    · intro _; simp
    · intro h
      have : next.data = [] := isPrefixOf_nil_eq next.data (by simpa using h)
      have hne : next = "" := String.ext (by simpa using this)
      simp [hne]
    · intro h _
      exfalso
      have : (List.isPrefixOf (("" : String).data) next.data) = true := by
        simp [show ("" : String).data = [] from rfl, List.isPrefixOf]
      simp [this] at h
  · by_cases hn : next = ""
    · subst hn
      refine ⟨⟨"", ?_⟩, ?_, ?_, ?_⟩
      · simp [hp, String.append_empty]
      · intro h
        have : prev.data = [] := isPrefixOf_nil_eq prev.data (by simpa using h)
        have : prev = "" := String.ext (by simpa using this)
        exact absurd this hp
      · intro _; simp [hp]
      · intro _ h
        exfalso
        have : (List.isPrefixOf (("" : String).data) prev.data) = true := by
          simp [show ("" : String).data = [] from rfl, List.isPrefixOf]
        simp [this] at h
    · by_cases h1 : prev.data.isPrefixOf next.data
      · refine ⟨?_, ?_, ?_, ?_⟩
        · obtain ⟨t, htt⟩ := isPrefixOf_exists_append prev.data next.data h1
          exact ⟨⟨t⟩, by simp [hp, hn, h1, String.ext_iff, String.data_append, htt]⟩
        · intro _; simp [hp, hn, h1]
        · intro h2
          have := isPrefixOf_antisymm prev.data next.data h1 h2
          have heq : prev = next := String.ext this
          simp [hp, hn, h1, heq]
        · intro hcon _
          exact absurd h1 (by simp [hcon])
      · by_cases h2 : next.data.isPrefixOf prev.data
        · refine ⟨?_, ?_, ?_, ?_⟩
          · exact ⟨"", by simp [hp, hn, h1, h2, String.append_empty]⟩
          · intro hcon; exact absurd hcon (by simp [h1])
          · intro _; simp [hp, hn, h1, h2]
          · intro _ hcon; exact absurd hcon (by simp [h2])
        · refine ⟨⟨next, by simp [hp, hn, h1, h2]⟩, ?_, ?_, ?_⟩
          · intro hcon; exact absurd hcon (by simp [h1])
          · intro hcon; exact absurd hcon (by simp [h2])
          · intro _ _; simp [hp, hn, h1, h2]

/-- Witness for C10 at `prev = "ab"`, `next = "abc"` (where `next` extends
`prev`). -/
theorem mergeStreamText_spec_witness :
    jsStartsWith "abc" "ab" = true ∧ mergeStreamText "ab" "abc" = "abc" :=
  ⟨by decide, (mergeStreamText_spec "ab" "abc").2.1 (by decide)⟩

/-! ## Progressive-card status machine (`applyVerboseEvent`, renderer
source lines 376-409)

`AgentRunStatus` / `AgentRunTracker` are imported by the renderer from
`agent-card-view.ts`, which is not among the provided sources; they are
modelled from the spec (section 3, `AgentRunState`): a status enum plus
accumulated draft text and message log, with plain setter methods. -/

/-- Modelled from the spec: the `AgentRunState` status enum
`{Idle, Thinking, ToolCalling, WaitingToolResult, Completed, Error}`. -/
inductive AgentRunStatus where
  | Idle
  | Thinking
  | ToolCalling
  | WaitingToolResult
  | Completed
  | Error
  deriving DecidableEq

/-- Modelled from the spec: the per-reply-cycle `AgentRunState` record
(status, accumulated draft answer, accumulated structured message log). -/
structure AgentRunTracker where
  currentStatus : AgentRunStatus
  draftAnswer : String
  messages : List Json

/-- Modelled from the spec: `tracker.setStatus` assigns the status field. -/
def AgentRunTracker.setStatus (t : AgentRunTracker) (s : AgentRunStatus) : AgentRunTracker :=
  { t with currentStatus := s }

/-- Modelled from the spec: `tracker.setDraftAnswer` assigns the draft. -/
def AgentRunTracker.setDraftAnswer (t : AgentRunTracker) (s : String) : AgentRunTracker :=
  { t with draftAnswer := s }

/-- `applyVerboseEvent` (renderer source): fold one verbose stream event
into the tracker and the shared assistant text buffer.  Events are
untyped (`any`) in the source, hence `Json`; property access on a `null`
event or a non-string text delta surfaces as a `TypeError`. -/
def applyVerboseEvent (tracker : AgentRunTracker) (event : Json) (buf : String) :
    Except String (AgentRunTracker × String) := do
  let dataRaw ← jsGet event "data"
  let data := (jsOr dataRaw (some (.obj []))).getD .null
  let s1 ← jsGet event "stream"
  let s2 ← jsGet event "event"
  let pay ← jsGet event "payload"
  let stream := jsOr (jsOr s1 s2) (jsGetOpt pay "stream")
  if jsEqStr stream "assistant" then
    let dtext ← jsGet data "text"
    let r ←
      if optTruthy dtext then
        match dtext with
        | some (.str s) =>
          let merged := mergeStreamText buf s
          pure (tracker.setDraftAnswer merged, merged)
        | _ => Except.error "TypeError: text delta is not a string"
      else pure (tracker, buf)
    if r.1.currentStatus = .Idle then
      pure (r.1.setStatus .Thinking, r.2)
    else pure r
  else if jsEqStr stream "tool" then
    let phase ← jsGet data "phase"
    if jsEqStr phase "start" then pure (tracker.setStatus .ToolCalling, buf)
    else if jsEqStr phase "result" || jsEqStr phase "output" then
      pure (tracker.setStatus .WaitingToolResult, buf)
    else if jsEqStr phase "error" then pure (tracker.setStatus .Error, buf)
    else pure (tracker, buf)
  else if jsEqStr stream "lifecycle" then
    let phase ← jsGet data "phase"
    if jsEqStr phase "start" then pure (tracker.setStatus .Thinking, buf)
    else if jsEqStr phase "error" then pure (tracker.setStatus .Error, buf)
    else pure (tracker, buf)
  else pure (tracker, buf)

/-- A `stream: "tool"` event with the given phase. -/
def toolEvt (phase : String) : Json :=
  .obj [("stream", .str "tool"), ("data", .obj [("phase", .str phase)])]

/-- A `stream: "lifecycle"` event with the given phase. -/
def lifecycleEvt (phase : String) : Json :=
  .obj [("stream", .str "lifecycle"), ("data", .obj [("phase", .str phase)])]

/-- C4.  In the progressive-card status machine, a tool-phase `start`
event moves a tracker in `Idle` or `Thinking` to `ToolCalling`; a
subsequent tool-phase `result` (or `output`) event moves it to
`WaitingToolResult`; and an `error`-phase event (tool or lifecycle
stream) forces `Error` from any state. -/
theorem applyVerboseEvent_status_machine (tr tr' : AgentRunTracker) (buf : String)
    (h : tr.currentStatus = .Idle ∨ tr.currentStatus = .Thinking) :
    applyVerboseEvent tr (toolEvt "start") buf = .ok (tr.setStatus .ToolCalling, buf) ∧
    applyVerboseEvent (tr.setStatus .ToolCalling) (toolEvt "result") buf
      = .ok (tr.setStatus .WaitingToolResult, buf) ∧
    applyVerboseEvent (tr.setStatus .ToolCalling) (toolEvt "output") buf
      = .ok (tr.setStatus .WaitingToolResult, buf) ∧
    applyVerboseEvent tr' (toolEvt "error") buf = .ok (tr'.setStatus .Error, buf) ∧
    applyVerboseEvent tr' (lifecycleEvt "error") buf = .ok (tr'.setStatus .Error, buf) := by
  exact ⟨rfl, rfl, rfl, rfl, rfl⟩

/-- Witness for C4: a concrete `Idle` tracker walks
`Idle → ToolCalling → WaitingToolResult`. -/
theorem applyVerboseEvent_status_machine_witness :
    applyVerboseEvent ⟨.Idle, "", []⟩ (toolEvt "start") ""
        = .ok (⟨.ToolCalling, "", []⟩, "") ∧
    applyVerboseEvent ⟨.ToolCalling, "", []⟩ (toolEvt "result") ""
        = .ok (⟨.WaitingToolResult, "", []⟩, "") :=
  ⟨(applyVerboseEvent_status_machine ⟨.Idle, "", []⟩ ⟨.Idle, "", []⟩ "" (Or.inl rfl)).1,
   (applyVerboseEvent_status_machine ⟨.Idle, "", []⟩ ⟨.Idle, "", []⟩ "" (Or.inl rfl)).2.1⟩

/-! ## `createCardUpdateController` (renderer source, lines 411-460)

The controller closes over `pending`, `inFlight`, `lastSentAt` and issues
`updateCardFeishu` calls.  Its single-threaded async execution is
modelled as a state machine: the loop task's continuation is a program
counter (`idle`: `inFlight === null`; `waiting`: parked on the throttle
`setTimeout` inside `flushOnce`, `pending` not yet consumed; `sending`:
parked on `await updateCardFeishu`, payload already consumed and the
network call already issued).  External occurrences — a `schedule` call,
the timer firing, the network call resolving — are timed events; each
event runs the corresponding synchronous code up to the next suspension
point, exactly as the JavaScript event loop does. -/

/-- Continuation state of the flush loop task. -/
inductive FlushPC where
  | idle
  | waiting
  | sending
  deriving DecidableEq

/-- Controller state: the single pending slot, the loop continuation, the
last send time, and the list of issued `updateCardFeishu` payloads
(oldest first). -/
structure CardCtrlState (α : Type) where
  pending : Option α
  pc : FlushPC
  lastSentAt : Nat
  calls : List α

/-- `MIN_INTERVAL_MS` from the source. -/
def MIN_INTERVAL_MS : Nat := 350

/-- The synchronous prefix of one `while (pending) { await flushOnce() }`
iteration at time `t`: exit the loop when nothing is pending; park on the
throttle timer when inside the minimum interval; otherwise consume the
pending payload, stamp `lastSentAt`, and issue the network call. -/
def flushStep {α} (t : Nat) (s : CardCtrlState α) : CardCtrlState α :=
  match s.pending with
  | none => { s with pc := .idle }
  | some c =>
    let wait := MIN_INTERVAL_MS - (t - s.lastSentAt)
    if 0 < wait then { s with pc := .waiting }
    else { s with pending := none, lastSentAt := t, calls := s.calls ++ [c], pc := .sending }

/-- External occurrences driving the controller. -/
inductive CardEvent (α : Type) where
  | schedule (card : α)
  | timerFire
  | sendComplete

/-- One event-loop step of the controller at time `t`.  `schedule`
overwrites the pending slot and `kick`s (starting the loop only when no
task is in flight); the timer firing resumes `flushOnce` after its sleep
(re-reading `pending`, which is why later schedules win); a completed
network call re-enters the loop test (covering the `finally` restart,
which is observationally the same). -/
def cardCtrlStep {α} (s : CardCtrlState α) (e : CardEvent α) (t : Nat) : CardCtrlState α :=
  match e with
  | .schedule c =>
    let s' := { s with pending := some c }
    match s.pc with
    | .idle => flushStep t s'
    | _ => s'
  | .timerFire =>
    match s.pc with
    | .waiting =>
      match s.pending with
      | some c =>
        { s with pending := none, lastSentAt := t, calls := s.calls ++ [c], pc := .sending }
      | none => { s with pc := .idle }
    | _ => s
  | .sendComplete =>
    match s.pc with
    | .sending => flushStep t s
    | _ => s

/-- Run the controller over a timed event trace. -/
def cardCtrlRun {α} (s : CardCtrlState α) : List (CardEvent α × Nat) → CardCtrlState α
  | [] => s
  | (e, t) :: es => cardCtrlRun (cardCtrlStep s e t) es

/-- A freshly created controller (`pending = null`, `inFlight = null`,
`lastSentAt = 0`). -/
def initCardCtrl {α} : CardCtrlState α := ⟨none, .idle, 0, []⟩

/-- A controller that last sent at time `tp` and is otherwise quiescent
(call log restarted for the observation window). -/
def throttledCardCtrl {α} (tp : Nat) : CardCtrlState α := ⟨none, .idle, tp, []⟩

/-- Counterexample for C1.  On a fresh controller, `schedule A` runs the
flush loop synchronously: `lastSentAt = 0` makes the computed wait zero at
any realistic clock value, so `updateCardFeishu A` is issued before
`schedule B` can run.  Scheduling `1` then `2` at time 10⁶ and letting
the loop drain produces the two calls `[1, 2]` — not exactly one call
carrying `2` as the claim states. -/
theorem card_queue_counterexample :
    (cardCtrlRun initCardCtrl
        [(.schedule 1, 1000000), (.schedule 2, 1000000),
         (.sendComplete, 1000100), (.timerFire, 1000450), (.sendComplete, 1000500)]).calls
      = [1, 2] ∧ [1, 2] ≠ ([2] : List Nat) := by
  exact ⟨rfl, by decide⟩

/-- C1 (amended).  Scheduling `A` then `B` before any flush completes on a
*fresh* controller yields exactly two `updateCardFeishu` calls, the first
carrying `A` and the second `B`; only when the controller is inside the
350 ms minimum interval of a previous send (so the flush loop parks on
the throttle timer) do the two schedules coalesce into exactly one call
carrying `B`.  In both cases the last call carries `B`. -/
theorem card_queue_amended {α} (A B : α) (t0 t1 t2 t3 tp u1 u2 : Nat)
    (hfresh : 350 ≤ t0) (hthrottle : t0 - tp < 350) :
    (cardCtrlRun initCardCtrl
        [(.schedule A, t0), (.schedule B, t0),
         (.sendComplete, t1), (.timerFire, t2), (.sendComplete, t3)]).calls = [A, B] ∧
    (cardCtrlRun (throttledCardCtrl tp)
        [(.schedule A, t0), (.schedule B, t0),
         (.timerFire, u1), (.sendComplete, u2)]).calls = [B] := by
  constructor
  · have e0 : ¬ t0 < MIN_INTERVAL_MS := by
      simp only [MIN_INTERVAL_MS]; omega
    rcases Nat.lt_or_ge (t1 - t0) 350 with hlt | hge
    · have e1 : t1 - t0 < MIN_INTERVAL_MS := by
        simp only [MIN_INTERVAL_MS]; omega
      simp [cardCtrlRun, cardCtrlStep, flushStep, e0, e1, initCardCtrl]
    · have e1 : ¬ t1 - t0 < MIN_INTERVAL_MS := by
        simp only [MIN_INTERVAL_MS]; omega
      simp [cardCtrlRun, cardCtrlStep, flushStep, e0, e1, initCardCtrl]
  · have e0 : t0 - tp < MIN_INTERVAL_MS := by
      simp only [MIN_INTERVAL_MS]; omega
    simp [cardCtrlRun, cardCtrlStep, flushStep, e0, throttledCardCtrl]

/-- Witness for the amended C1 at concrete payloads and times. -/
theorem card_queue_amended_witness :
    (cardCtrlRun initCardCtrl
        [(.schedule 1, 1000), (.schedule 2, 1000),
         (.sendComplete, 1100), (.timerFire, 1350), (.sendComplete, 1400)]).calls = [1, 2] ∧
    (cardCtrlRun (throttledCardCtrl 900)
        [(.schedule 1, 1000), (.schedule 2, 1000),
         (.timerFire, 1250), (.sendComplete, 1300)]).calls = [2] :=
  card_queue_amended 1 2 1000 1100 1350 1400 900 1250 1300 (by decide) (by decide)

/-! ## Errors thrown by host / transport calls -/

/-- Values thrown by the embedded code or its collaborators: a RegExp
compilation `SyntaxError`, a `TypeError`, an axios-style API error whose
`response.data` carries a Feishu `code` and `msg`, or any other error. -/
inductive JsErr where
  | regexSyntax (pattern : String)
  | typeErr (msg : String)
  | api (code : Option Int) (msg : String)
  | other (msg : String)

/-- Truthiness of a possibly-undefined string (`undefined` and `""` are
falsy). -/
def strTruthy : Option String → Bool
  | none => false
  | some s => !(s == "")

/-- JavaScript `||` on possibly-undefined strings. -/
def strOr (a b : Option String) : Option String := if strTruthy a then a else b

/-! ## `resolveFeishuMediaList` and helpers (src/outbound.ts lines 447-689)

Transport and storage collaborators (`downloadMessageResourceFeishu`,
`detectMime`, `saveMediaBuffer`) are injected as an oracle environment;
each returns `Except` since each call can reject. -/

/-- A downloaded resource: an opaque buffer handle plus transport
metadata. -/
structure DownloadResult where
  buffer : Nat
  contentType : Option String
  fileName : Option Json

/-- Result of `saveMediaBuffer`. -/
structure SavedMedia where
  path : String
  contentType : Option String

/-- Oracle for the media collaborators. -/
structure MediaEnv where
  downloadResource : String → Json → String → Except JsErr DownloadResult
  detectMime : Nat → Except JsErr String
  saveMediaBuffer : Nat → Option String → Nat → Option Json → Except JsErr SavedMedia

/-- One resolved attachment (`FeishuMediaInfo`). -/
structure FeishuMediaInfo where
  path : String
  url : Option String
  contentType : Option String
  placeholder : String

/-- `getFeishuImageUrl` (lines 238-250): the externally fetchable image
URL. -/
def getFeishuImageUrl (imageKey : Json) (domain : String) (tenantKey : Option String) : String :=
  let baseUrl := if domain == "lark" then "https://lark.im" else "https://feishu.cn"
  let url := baseUrl ++ "/im/v1/images/" ++ imageKey.jsToString
  match tenantKey with
  | some tk => url ++ "?tenant_key=" ++ tk
  | none => url

/-- `inferPlaceholder` (lines 528-544). -/
def inferPlaceholder (messageType : String) : String :=
  if messageType == "image" then "<media:image>"
  else if messageType == "file" then "<media:document>"
  else if messageType == "audio" then "<media:audio>"
  else if messageType == "video" || messageType == "media" then "<media:video>"
  else if messageType == "sticker" then "<media:sticker>"
  else "<media:document>"

/-- The media keys parsed from a message content blob. -/
structure MediaKeys where
  imageKey : Option Json
  fileKey : Option Json
  fileName : Option Json

/-- `parseMediaKeys` (lines 450-479): kind→field mapping, with every
parse/access failure collapsing to the empty record. -/
def parseMediaKeys (content : String) (messageType : String) : MediaKeys :=
  match jsonParse content with
  | none => ⟨none, none, none⟩
  | some parsed =>
    let computed : Except String MediaKeys := do
      if messageType == "image" then
        let ik ← jsGet parsed "image_key"
        pure ⟨ik, none, none⟩
      else if messageType == "file" then
        let fk ← jsGet parsed "file_key"
        let fn ← jsGet parsed "file_name"
        pure ⟨none, fk, fn⟩
      else if messageType == "audio" then
        let fk ← jsGet parsed "file_key"
        pure ⟨none, fk, none⟩
      else if messageType == "video" || messageType == "media" then
        let fk ← jsGet parsed "file_key"
        let ik ← jsGet parsed "image_key"
        let fn ← jsGet parsed "file_name"
        pure ⟨ik, fk, fn⟩
      else if messageType == "sticker" then
        let fk ← jsGet parsed "file_key"
        pure ⟨none, fk, none⟩
      else pure ⟨none, none, none⟩
    match computed with
    | .error _ => ⟨none, none, none⟩
    | .ok m => m

/-- The media-bearing message types accepted by `resolveFeishuMediaList`. -/
def mediaTypes : List String := ["image", "file", "audio", "video", "media", "sticker", "post"]

/-- The body of the per-image `try` in the `post` branch: download the
embedded image by key, fill in the content type, save it, and build the
media record with its public URL. -/
def postItemResolve (env : MediaEnv) (messageId : String) (maxBytes : Nat) (domain : String)
    (imageKey : Json) : Except JsErr FeishuMediaInfo := do
  let result ← env.downloadResource messageId imageKey "image"
  let contentType ←
    if strTruthy result.contentType then pure result.contentType
    else (env.detectMime result.buffer).map some
  let saved ← env.saveMediaBuffer result.buffer contentType maxBytes none
  let imageUrl := getFeishuImageUrl imageKey domain none
  pure ⟨saved.path, some imageUrl, saved.contentType, "<media:image>"⟩

/-- The `for (const imageKey of imageKeys)` loop of the `post` branch: a
failed item is logged and skipped, the loop continues. -/
def resolvePostLoop (env : MediaEnv) (messageId : String) (maxBytes : Nat) (domain : String) :
    List Json → List FeishuMediaInfo
  | [] => []
  | k :: ks =>
    match postItemResolve env messageId maxBytes domain k with
    | .ok item => item :: resolvePostLoop env messageId maxBytes domain ks
    | .error _ => resolvePostLoop env messageId maxBytes domain ks

/-- The body of the `try` in the non-`post` branch: resolve the single
most relevant key. -/
def singleItemResolve (env : MediaEnv) (messageId : String) (messageType : String)
    (mediaKeys : MediaKeys) (maxBytes : Nat) (domain : String) :
    Except JsErr (Option FeishuMediaInfo) := do
  let isVideoType := messageType == "video" || messageType == "media"
  let fileKey := if isVideoType then jsOr mediaKeys.fileKey mediaKeys.imageKey
                 else jsOr mediaKeys.imageKey mediaKeys.fileKey
  if optTruthy fileKey then
    let resourceType := if messageType == "image" then "image" else "file"
    let result ← env.downloadResource messageId (fileKey.getD .null) resourceType
    let fileName := if optTruthy result.fileName then result.fileName else mediaKeys.fileName
    let contentType ←
      if strTruthy result.contentType then pure result.contentType
      else (env.detectMime result.buffer).map some
    let saved ← env.saveMediaBuffer result.buffer contentType maxBytes fileName
    let imageUrl :=
      if messageType == "image" && optTruthy mediaKeys.imageKey then
        some (getFeishuImageUrl (mediaKeys.imageKey.getD .null) domain none)
      else none
    pure (some ⟨saved.path, imageUrl, saved.contentType, inferPlaceholder messageType⟩)
  else pure none

/-- `resolveFeishuMediaList` (lines 550-689): resolve zero or more media
attachments for one message.  For `post` messages every embedded image is
fetched in key order, failures skipping only their own item; for the
other media kinds the single relevant key is fetched, any failure
skipping media entirely. -/
def resolveFeishuMediaList (env : MediaEnv) (messageId : String) (messageType : String)
    (content : String) (maxBytes : Nat) (domain : String) : List FeishuMediaInfo :=
  if !(mediaTypes.contains messageType) then []
  else if messageType == "post" then
    let imageKeys := (parsePostContent content).2
    if imageKeys.isEmpty then []
    else resolvePostLoop env messageId maxBytes domain imageKeys
  else
    let mediaKeys := parseMediaKeys content messageType
    if !(optTruthy mediaKeys.imageKey) && !(optTruthy mediaKeys.fileKey) then []
    else
      match singleItemResolve env messageId messageType mediaKeys maxBytes domain with
      | .ok (some item) => [item]
      | .ok none => []
      | .error _ => []

/-- The post-branch loop keeps exactly the successful items, in key
order. -/
theorem resolvePostLoop_eq_filterMap (env : MediaEnv) (messageId : String) (maxBytes : Nat)
    (domain : String) (keys : List Json) :
    resolvePostLoop env messageId maxBytes domain keys
      = keys.filterMap (fun k => (postItemResolve env messageId maxBytes domain k).toOption) := by
  induction keys with
  | nil => rfl
  | cons k ks ih =>
    cases h : postItemResolve env messageId maxBytes domain k with
    | ok item => simp [resolvePostLoop, h, ih, Except.toOption]
    | error e => simp [resolvePostLoop, h, ih, Except.toOption]

/-- C8.  Resolving media for a `post` message yields exactly the per-key
successes, in embedded-key order: each key is resolved by its own
independent `postItemResolve` call against the environment, a failing key
contributes nothing, and every other key's success is still included —
one failure never aborts the others. -/
theorem resolveFeishuMediaList_post_independent (env : MediaEnv) (messageId : String)
    (content : String) (maxBytes : Nat) (domain : String) :
    resolveFeishuMediaList env messageId "post" content maxBytes domain
      = ((parsePostContent content).2).filterMap
          (fun k => (postItemResolve env messageId maxBytes domain k).toOption) := by
  unfold resolveFeishuMediaList
  have hmt : mediaTypes.contains "post" = true := by decide
  simp only [hmt, Bool.not_true, Bool.false_eq_true, if_false, if_true, reduceIte]
  by_cases hk : ((parsePostContent content).2).isEmpty
  · have : (parsePostContent content).2 = [] := by
      cases h : (parsePostContent content).2 with
      | nil => rfl
      | cons a l => rw [h] at hk; simp at hk
    simp [this]
  · simp [hk, resolvePostLoop_eq_filterMap]

/-! ## `feishuOutbound.sendMedia` (src/outbound.ts lines 8-95)

The outbound adapter: optional text phase, then up to three
`sendMediaFeishu` attempts with exponential back-off, then a plain-text
URL fallback.  The transport calls are an injected oracle; the trace
records every media attempt, every back-off delay, and every plain-text
send. -/

/-- The backtick character. -/
def btick : Char := Char.ofNat 96

/-- Three backticks, the fence delimiter of ```` /```[\s\S]*?```/ ````. -/
def fenceChars : List Char := [btick, btick, btick]

/-- Does the text contain a complete fenced code block (two fence
delimiters, the second starting at least three characters later)? -/
def hasCodeFence : List Char → Bool
  | [] => false
  | c :: cs =>
    if charsStartWith fenceChars (c :: cs) then charsContain fenceChars (cs.drop 2)
    else hasCodeFence cs

/-- Character classes of the table regex `\|.+\|[\r\n]+\|[-:| ]+\|`. -/
def notNewline (c : Char) : Bool :=
  !(c == '\n' || c == '\r' || c == Char.ofNat 0x2028 || c == Char.ofNat 0x2029)

/-- Line-terminator class `[\r\n]`. -/
def isCrLf (c : Char) : Bool := c == '\n' || c == '\r'

/-- Separator-row class `[-:| ]`. -/
def isTableDash (c : Char) : Bool := c == '-' || c == ':' || c == '|' || c == ' '

/-- One-or-more characters of class `p`, then hand the rest to the
continuation at any split (existence semantics of a backtracking `+`). -/
def existsSplit1 (p : Char → Bool) (k : List Char → Bool) : List Char → Bool
  | [] => false
  | c :: cs => p c && (k cs || existsSplit1 p k cs)

/-- Match `\|.+\|[\r\n]+\|[-:| ]+\|` anchored at the head. -/
def matchTableAt : List Char → Bool
  | '|' :: cs =>
    existsSplit1 notNewline (fun cs1 =>
      match cs1 with
      | '|' :: cs2 =>
        existsSplit1 isCrLf (fun cs3 =>
          match cs3 with
          | '|' :: cs4 =>
            existsSplit1 isTableDash (fun cs5 =>
              match cs5 with
              | '|' :: _ => true
              | _ => false) cs4
          | _ => false) cs2
      | _ => false) cs
  | _ => false

/-- Leftmost search for the table signature. -/
def containsTableSig : List Char → Bool
  | [] => false
  | c :: cs => matchTableAt (c :: cs) || containsTableSig cs

/-- `shouldUseCard` (lines 8-12): fenced code block or markdown table. -/
def shouldUseCard (text : String) : Bool :=
  hasCodeFence text.data || containsTableSig text.data

/-- Result of a transport send (opaque payload). -/
structure SendRes where
  payload : String

/-- The adapter's return value `{ channel: "feishu", ...result }`. -/
structure OutboundRes where
  channel : String
  res : SendRes

/-- Oracle for the sends issued by `sendMedia`: the renderer's card
delivery, `sendMessageFeishu`, and the outcome of the i-th
`sendMediaFeishu` attempt. -/
structure SendMediaEnv where
  deliverCard : String → Except JsErr Unit
  sendMessage : String → Except JsErr SendRes
  sendMediaAttempt : Nat → Except JsErr SendRes

/-- Observable trace of one `sendMedia` call. -/
structure SendMediaTrace where
  mediaAttempts : List Nat
  delays : List Nat
  textsSent : List String

/-- The `for (let attempt = 1; attempt <= 3; attempt++)` retry loop: a
successful attempt returns immediately; a failure records the attempt
and, if attempts remain, sleeps `1000 * 2^(attempt-1)` ms. -/
def sendMediaRetryLoop (env : SendMediaEnv) :
    List Nat → SendMediaTrace → Option SendRes × SendMediaTrace
  | [], tr => (none, tr)
  | a :: rest, tr =>
    match env.sendMediaAttempt a with
    | .ok r => (some r, { tr with mediaAttempts := tr.mediaAttempts ++ [a] })
    | .error _ =>
      let tr' := { tr with
        mediaAttempts := tr.mediaAttempts ++ [a],
        delays := if rest.isEmpty then tr.delays else tr.delays ++ [1000 * 2 ^ (a - 1)] }
      sendMediaRetryLoop env rest tr'

/-- `feishuOutbound.sendMedia`: optional text phase (card or plain text),
then the media retry loop with URL fallback, else a plain text send. -/
def feishuOutboundSendMedia (env : SendMediaEnv) (renderModeCard : Bool)
    (text : Option String) (mediaUrl : Option String) :
    Except JsErr OutboundRes × SendMediaTrace :=
  let tr0 : SendMediaTrace := ⟨[], [], []⟩
  -- text phase: `if (text?.trim())`
  let textPhase : Except JsErr Unit × SendMediaTrace :=
    if strTruthy (text.map jsTrim) then
      let t := text.getD ""
      if renderModeCard || shouldUseCard t then
        ((env.deliverCard t).map fun _ => (), tr0)
      else
        match env.sendMessage t with
        | .ok _ => (.ok (), { tr0 with textsSent := tr0.textsSent ++ [t] })
        | .error e => (.error e, { tr0 with textsSent := tr0.textsSent ++ [t] })
    else (.ok (), tr0)
  match textPhase with
  | (.error e, tr) => (.error e, tr)
  | (.ok _, tr) =>
    if strTruthy mediaUrl then
      let url := mediaUrl.getD ""
      match sendMediaRetryLoop env [1, 2, 3] tr with
      | (some r, tr') => (.ok ⟨"feishu", r⟩, tr')
      | (none, tr') =>
        let fallbackText := "[Media Upload Failed] Click to view: " ++ url
        match env.sendMessage fallbackText with
        | .ok r => (.ok ⟨"feishu", r⟩, { tr' with textsSent := tr'.textsSent ++ [fallbackText] })
        | .error e => (.error e, { tr' with textsSent := tr'.textsSent ++ [fallbackText] })
    else
      match env.sendMessage (text.getD "") with
      | .ok r => (.ok ⟨"feishu", r⟩, { tr with textsSent := tr.textsSent ++ [text.getD ""] })
      | .error e => (.error e, { tr with textsSent := tr.textsSent ++ [text.getD ""] })

/-- C9.  When a media URL is provided and every upload attempt fails,
`sendMedia` makes exactly three `sendMediaFeishu` attempts with back-off
delays of 1000 ms then 2000 ms, does not throw, sends a plain-text
fallback message containing the media URL, and returns that send's
result. -/
theorem sendMedia_retry_fallback (env : SendMediaEnv) (url : String) (r : SendRes)
    (e1 e2 e3 : JsErr)
    (hurl : url ≠ "")
    (h1 : env.sendMediaAttempt 1 = .error e1)
    (h2 : env.sendMediaAttempt 2 = .error e2)
    (h3 : env.sendMediaAttempt 3 = .error e3)
    (hok : env.sendMessage ("[Media Upload Failed] Click to view: " ++ url) = .ok r) :
    feishuOutboundSendMedia env false none (some url)
      = (.ok ⟨"feishu", r⟩,
         ⟨[1, 2, 3], [1000, 2000], ["[Media Upload Failed] Click to view: " ++ url]⟩) := by
  have hu : strTruthy (some url) = true := by
    simp [strTruthy, hurl]
  have hn : strTruthy none = false := rfl
  simp [feishuOutboundSendMedia, sendMediaRetryLoop, hn, hu, h1, h2, h3, hok]

/-- Witness for C9: a concrete environment whose uploads always fail and
whose message send echoes its text. -/
theorem sendMedia_retry_fallback_witness :
    feishuOutboundSendMedia
        ⟨fun _ => .ok (), fun t => .ok ⟨t⟩, fun _ => .error (.other "upload down")⟩
        false none (some "https://cdn.example/x.png")
      = (.ok ⟨"feishu", ⟨"[Media Upload Failed] Click to view: https://cdn.example/x.png"⟩⟩,
         ⟨[1, 2, 3], [1000, 2000],
          ["[Media Upload Failed] Click to view: https://cdn.example/x.png"]⟩) :=
  sendMedia_retry_fallback
    ⟨fun _ => .ok (), fun t => .ok ⟨t⟩, fun _ => .error (.other "upload down")⟩
    "https://cdn.example/x.png"
    ⟨"[Media Upload Failed] Click to view: https://cdn.example/x.png"⟩
    (.other "upload down") (.other "upload down") (.other "upload down")
    (by simp) rfl rfl rfl rfl

/-! ## Host `RegExp` compilation and the mention-stripping regexes

`stripBotMention` (src/outbound.ts lines 437-445) builds
`new RegExp("@" + mention.name + "\\s*", "g")` from the user-controlled
mention display name.  `RegExp` is a host primitive: compilation throws a
`SyntaxError` on an invalid pattern.  The ECMAScript pattern grammar is
modelled by a simplified validity scan — group balance, character-class
termination, escape completeness — which is what the patterns arising
here can violate.  A matched name/key is removed literally (names without
regex metacharacters behave literally under the source's regex). -/

/-- Simplified scan of an ECMAScript pattern: `depth` counts open groups,
`inClass` tracks an open character class. -/
def jsRegExpScan : List Char → Nat → Bool → Bool
  | [], depth, inClass => !inClass && depth == 0
  | c :: cs, depth, inClass =>
    if c == '\\' then
      match cs with
      | [] => false
      | _ :: cs' => jsRegExpScan cs' depth inClass
    else if inClass then
      if c == rbrack then jsRegExpScan cs depth false else jsRegExpScan cs depth true
    else if c == lbrack then jsRegExpScan cs depth true
    else if c == '(' then jsRegExpScan cs (depth + 1) false
    else if c == ')' then depth != 0 && jsRegExpScan cs (depth - 1) false
    else jsRegExpScan cs depth false

/-- Does `new RegExp pattern` compile? -/
def jsRegExpValid (pattern : String) : Bool := jsRegExpScan pattern.data 0 false

/-- Remove every occurrence of `pat` from `cs`; when `skipWs` is set, the
match also swallows the following whitespace run (the `\s*` tail of the
mention pattern).  `fuel` starts at the list length. -/
def removeAllF : Nat → List Char → Bool → List Char → List Char
  | 0, _, _, cs => cs
  | _ + 1, _, _, [] => []
  | fuel + 1, pat, skipWs, c :: cs =>
    if !pat.isEmpty && charsStartWith pat (c :: cs) then
      let rest := (c :: cs).drop pat.length
      removeAllF fuel pat skipWs (if skipWs then rest.dropWhile jsWhitespace else rest)
    else c :: removeAllF fuel pat skipWs cs

/-- `s.replace(new RegExp(pat, "g"), "")` for the literal patterns used by
`stripBotMention`. -/
def jsReplaceAllPat (s : String) (pat : String) (skipTrailingWs : Bool) : String :=
  ⟨removeAllF s.data.length pat.data skipTrailingWs s.data⟩

/-- A message mention (the fields the source reads: `key`, `id.open_id`,
`name`). -/
structure Mention where
  key : String
  idOpenId : Option String
  name : String

/-- `stripBotMention`: remove each mention's `@name` (with trailing
whitespace) and placeholder key.  The two `new RegExp` constructions throw
a `SyntaxError` when the interpolated name or key is not a valid
pattern. -/
def stripBotMention (text : String) (mentions : Option (List Mention)) :
    Except JsErr String :=
  match mentions with
  | none => .ok text
  | some ms =>
    if ms.isEmpty then .ok text
    else
      ms.foldlM
        (fun result m =>
          let pat1 := "@" ++ m.name ++ "\\s*"
          if !(jsRegExpValid pat1) then .error (.regexSyntax pat1)
          else
            let r1 := jsTrim (jsReplaceAllPat result ("@" ++ m.name) true)
            if !(jsRegExpValid m.key) then .error (.regexSyntax m.key)
            else .ok (jsTrim (jsReplaceAllPat r1 m.key false)))
        text

/-! ## Inbound events and `parseFeishuMessageEvent`
(src/outbound.ts lines 371-445, 722-767) -/

/-- The sender identifier namespaces. -/
structure SenderId where
  open_id : Option String
  user_id : Option String
  union_id : Option String

/-- The message part of a Feishu message event. -/
structure FeishuMsg where
  message_id : String
  root_id : Option String
  parent_id : Option String
  chat_id : String
  chat_type : String
  message_type : String
  content : String
  mentions : Option (List Mention)

/-- A platform message event (the fields the source reads). -/
structure FeishuMessageEvent where
  senderId : SenderId
  message : FeishuMsg

/-- `x || ""` on a possibly-undefined string. -/
def strOrEmpty (a : Option String) : String := (strOr a (some "")).getD ""

/-- `checkBotMentioned` (lines 430-435). -/
def checkBotMentioned (event : FeishuMessageEvent) (botOpenId : Option String) : Bool :=
  let mentions := event.message.mentions.getD []
  if mentions.isEmpty then false
  else if !(strTruthy botOpenId) then !mentions.isEmpty
  else mentions.any fun m => m.idOpenId == botOpenId

/-- `parseMessageContent` (lines 413-428): the plaintext body per message
kind, with parse failures returning the raw content.  A truthy non-string
`text` field is coerced to its string form at this host boundary. -/
def parseMessageContent (content : String) (messageType : String) : String :=
  match jsonParse content with
  | none => content
  | some parsed =>
    if messageType == "text" then
      match jsGet parsed "text" with
      | .error _ => content
      | .ok t => jsOrToStr t
    else if messageType == "post" then (parsePostContent content).1
    else content

/-- A mention-forward target. -/
structure MentionTarget where
  openId : Option String
  name : String

/-- Modelled from the spec: `isMentionForwardRequest` (from `mention.ts`,
absent from src/) — the message addresses the bot *and* names at least
one other recipient. -/
def isMentionForwardRequest (event : FeishuMessageEvent) (botOpenId : Option String) : Bool :=
  checkBotMentioned event botOpenId &&
    (event.message.mentions.getD []).any
      (fun m => !(strTruthy botOpenId && m.idOpenId == botOpenId))

/-- Modelled from the spec: `extractMentionTargets` (from `mention.ts`,
absent from src/) — the mentioned users other than the bot. -/
def extractMentionTargets (event : FeishuMessageEvent) (botOpenId : Option String) :
    List MentionTarget :=
  ((event.message.mentions.getD []).filter
      (fun m => !(strTruthy botOpenId && m.idOpenId == botOpenId))).map
    fun m => ⟨m.idOpenId, m.name⟩

/-- Modelled from the spec: `extractMessageBody` (from `mention.ts`,
absent from src/) — strip every mention placeholder key from the body. -/
def extractMessageBody (content : String) (keys : List String) : String :=
  jsTrim ⟨keys.foldl (fun cs k => removeAllF cs.length k.data false cs) content.data⟩

/-- The normalized per-message context (`FeishuMessageContext`). -/
structure FeishuMessageContext where
  chatId : String
  messageId : String
  senderId : String
  senderOpenId : String
  chatType : String
  mentionedBot : Bool
  rootId : Option String
  parentId : Option String
  content : String
  contentType : String
  imageKey : Option Json
  senderName : Option String
  mentionTargets : Option (List MentionTarget)
  mentionMessageBody : Option String

/-- `parseFeishuMessageEvent` (lines 722-767).  The mention-stripping step
can throw (regex compilation), which propagates to the caller. -/
def parseFeishuMessageEvent (event : FeishuMessageEvent) (botOpenId : Option String) :
    Except JsErr FeishuMessageContext := do
  let rawContent := parseMessageContent event.message.content event.message.message_type
  let mentionedBot := checkBotMentioned event botOpenId
  let content ← stripBotMention rawContent event.message.mentions
  let imageKey : Option Json :=
    if event.message.message_type == "image" then
      match jsonParse event.message.content with
      | none => none
      | some parsed =>
        match jsGet parsed "image_key" with
        | .ok v => v
        | .error _ => none
    else none
  let ctx : FeishuMessageContext :=
    { chatId := event.message.chat_id,
      messageId := event.message.message_id,
      senderId := strOrEmpty (strOr event.senderId.user_id event.senderId.open_id),
      senderOpenId := strOrEmpty event.senderId.open_id,
      chatType := event.message.chat_type,
      mentionedBot,
      rootId := if strTruthy event.message.root_id then event.message.root_id else none,
      parentId := if strTruthy event.message.parent_id then event.message.parent_id else none,
      content,
      contentType := event.message.message_type,
      imageKey,
      senderName := none,
      mentionTargets := none,
      mentionMessageBody := none }
  if isMentionForwardRequest event botOpenId then
    let mt := extractMentionTargets event botOpenId
    if !mt.isEmpty then
      let allKeys := (event.message.mentions.getD []).map (·.key)
      pure { ctx with
        mentionTargets := some mt,
        mentionMessageBody := some (extractMessageBody content allKeys) }
    else pure ctx
  else pure ctx

/-! ## `isHistoryRequest` (src/outbound.ts lines 127-151)

Fourteen bilingual patterns of three shapes: a plain literal, two
literals separated by `.*` (which does not cross line terminators), or
two literals separated by `\s*`.  Existence of a match is decided by a
leftmost scan. -/

/-- A history-request pattern shape. -/
inductive HistPat where
  | plain (a : String)
  | dotStar (a b : String)
  | wsStar (a b : String)

/-- Match a history pattern anchored at `cs`. -/
def matchHistPatAt (p : HistPat) (cs : List Char) : Bool :=
  match p with
  | .plain a => charsStartWith a.data cs
  | .dotStar a b =>
    charsStartWith a.data cs &&
      charsContain b.data ((cs.drop a.data.length).takeWhile notNewline)
  | .wsStar a b =>
    charsStartWith a.data cs &&
      charsStartWith b.data ((cs.drop a.data.length).dropWhile jsWhitespace)

/-- Leftmost search for a history pattern. -/
def matchHistPat (p : HistPat) : List Char → Bool
  | [] => matchHistPatAt p []
  | c :: cs => matchHistPatAt p (c :: cs) || matchHistPat p cs

/-- `HISTORY_REQUEST_PATTERNS`, in source order (all case-insensitive; the
content is lowercased first, and the literals are lowercase). -/
def histPatterns : List HistPat :=
  [.dotStar "读取" "历史", .dotStar "获取" "历史", .dotStar "查看" "历史",
   .plain "聊天记录", .plain "历史消息", .plain "历史记录",
   .wsStar "chat" "history", .wsStar "message" "history",
   .dotStar "fetch" "history", .dotStar "get" "history",
   .dotStar "总结" "聊天", .dotStar "聊天" "总结",
   .dotStar "summarize" "chat", .dotStar "chat" "summary"]

/-- `isHistoryRequest`. -/
def isHistoryRequest (content : String) : Bool :=
  let normalizedContent := jsLower (jsTrim content)
  histPatterns.any fun p => matchHistPat p normalizedContent.data

/-! ## Permission errors (src/outbound.ts lines 271-316) -/

/-- A recognised Feishu permission error. -/
structure PermissionError where
  code : Int
  message : String
  grantUrl : Option String

/-- The literal prefix of the grant-URL regex
`https:\/\/open\.feishu\.cn\/app\/[^\s,]+`. -/
def grantUrlLit : List Char := "https://open.feishu.cn/app/".data

/-- Leftmost match of the grant-URL regex. -/
def extractGrantUrlFrom : List Char → Option String
  | [] => none
  | c :: cs =>
    if charsStartWith grantUrlLit (c :: cs) then
      let rest := (c :: cs).drop grantUrlLit.length
      let run := rest.takeWhile fun ch => !(jsWhitespace ch || ch == ',')
      if run.isEmpty then extractGrantUrlFrom cs
      else some ⟨grantUrlLit ++ run⟩
    else extractGrantUrlFrom cs

/-- `extractPermissionError` (lines 279-306): recognise the Feishu
permission error code 99991672 in an axios-style error and pull the grant
URL out of its message. -/
def extractPermissionError : JsErr → Option PermissionError
  | .api (some code) msg =>
    if code == 99991672 then some ⟨code, msg, extractGrantUrlFrom msg.data⟩ else none
  | _ => none

/-! ## Configuration and policy

The DM-policy logic lives in `handleFeishuMessage` itself; the group
policy helpers (`isFeishuGroupAllowed`, `resolveFeishuGroupConfig`,
`resolveFeishuReplyPolicy`, `resolveFeishuAllowlistMatch`) are imported
from `policy.ts`, which is absent from src/, and are modelled from the
spec (section 4.3). -/

/-- Modelled from the spec: per-group configuration (sender allowlist,
reply-policy override). -/
structure FeishuGroupConfig where
  allowFrom : Option (List String)
  requireMention : Option Bool

/-- The channel configuration fields the source reads. -/
structure FeishuConfig where
  appId : Option String
  domain : Option String
  dmPolicy : Option String
  allowFrom : Option (List String)
  groupPolicy : Option String
  groupAllowFrom : Option (List String)
  historyLimit : Option Nat
  mediaMaxMb : Option Nat
  requireMention : Option Bool
  groups : Option (List (String × FeishuGroupConfig))

/-- The host configuration fields the source reads. -/
structure ClawdbotConfig where
  feishu : Option FeishuConfig
  messagesGroupChatHistoryLimit : Option Nat

/-- Modelled from the spec: `isFeishuGroupAllowed` — `open` admits
everyone; `allowlist` admits listed ids (or the resolved display name);
other policies impose no gate at this check. -/
def isFeishuGroupAllowed (groupPolicy : String) (allowFrom : List String)
    (senderId : String) (senderName : Option String) : Bool :=
  if groupPolicy == "allowlist" then
    allowFrom.contains senderId ||
      (match senderName with
       | some n => allowFrom.contains n
       | none => false)
  else true

/-- Modelled from the spec: `resolveFeishuGroupConfig` — the per-group
configuration for a chat id. -/
def resolveFeishuGroupConfig (cfg : Option FeishuConfig) (groupId : String) :
    Option FeishuGroupConfig :=
  match cfg with
  | none => none
  | some c =>
    match c.groups with
    | none => none
    | some gs => (gs.find? fun g => g.1 == groupId).map (·.2)

/-- Modelled from the spec: `resolveFeishuReplyPolicy` — the effective
require-mention flag, group override before global, defaulting to
requiring a mention in groups. -/
def resolveFeishuReplyPolicy (isDirectMessage : Bool) (globalConfig : Option FeishuConfig)
    (groupConfig : Option FeishuGroupConfig) : Bool :=
  if isDirectMessage then false
  else
    match groupConfig.bind (·.requireMention) with
    | some b => b
    | none =>
      match globalConfig.bind (·.requireMention) with
      | some b => b
      | none => true

/-- Modelled from the spec: `resolveFeishuAllowlistMatch` — DM allowlist
membership. -/
def resolveFeishuAllowlistMatch (allowFrom : List String) (senderId : String) : Bool :=
  allowFrom.contains senderId

/-! ## History buffer helpers

`recordPendingHistoryEntryIfEnabled`, `buildPendingHistoryContextFromMap`,
`clearHistoryEntriesIfEnabled` and `DEFAULT_GROUP_HISTORY_LIMIT` come from
the plugin SDK (external to this repository) and are modelled from the
spec (section 4.5): ring-buffered append per chat, chronological replay
before the live message, cleared after a dispatch; a zero limit disables
the buffer. -/

/-- A buffered history entry. -/
structure HistoryEntry where
  sender : String
  body : String
  timestamp : Nat
  messageId : String

/-- Association lookup by string key. -/
def lookupAssoc {β : Type} (m : List (String × β)) (k : String) : Option β :=
  (m.find? fun e => e.1 == k).map (·.2)

/-- Association update (insert or overwrite) by string key. -/
def setAssoc {β : Type} (m : List (String × β)) (k : String) (v : β) : List (String × β) :=
  if (m.find? fun e => e.1 == k).isSome then
    m.map fun e => if e.1 == k then (k, v) else e
  else m ++ [(k, v)]

/-- Modelled from the spec: the SDK's default group-history limit (the
exact constant is immaterial to the claims). -/
def DEFAULT_GROUP_HISTORY_LIMIT : Nat := 50

/-- Modelled from the spec: append one gated-out message to the chat's
pending list, keeping at most `limit` newest entries; disabled at limit
0. -/
def recordPendingHistoryEntry (m : List (String × List HistoryEntry)) (key : String)
    (limit : Nat) (entry : HistoryEntry) : List (String × List HistoryEntry) :=
  if limit == 0 then m
  else
    let cur := (lookupAssoc m key).getD []
    setAssoc m key (((cur ++ [entry]).reverse.take limit).reverse)

/-- Modelled from the spec: replay the formatted buffered entries in
chronological order, then the live message. -/
def buildPendingHistoryContext (formattedEntries : List String) (currentMessage : String) :
    String :=
  String.intercalate "\n" (formattedEntries ++ [currentMessage])

/-- Modelled from the spec: clear the chat's buffer after a dispatch;
disabled at limit 0. -/
def clearHistoryEntries (m : List (String × List HistoryEntry)) (key : String)
    (limit : Nat) : List (String × List HistoryEntry) :=
  if limit == 0 then m else setAssoc m key []

/-! ## Module-level caches and timing constants
(src/outbound.ts lines 252-316) -/

/-- `MESSAGE_EXPIRY_MS`: 24 hours. -/
def MESSAGE_EXPIRY_MS : Nat := 24 * 60 * 60 * 1000

/-- `SENDER_NAME_TTL_MS`: 10 minutes. -/
def SENDER_NAME_TTL_MS : Nat := 10 * 60 * 1000

/-- `PERMISSION_ERROR_COOLDOWN_MS`: 5 minutes. -/
def PERMISSION_ERROR_COOLDOWN_MS : Nat := 5 * 60 * 1000

/-- The module-level mutable state of `outbound.ts`: the dedup map, the
sender-name cache, the permission cooldown map, plus the caller-owned
`chatHistories` buffer. -/
structure HandlerState where
  processedMessages : List (String × Nat)
  senderNameCache : List (String × (String × Nat))
  permissionErrorNotifiedAt : List (String × Nat)
  chatHistories : List (String × List HistoryEntry)

/-- The fresh module state. -/
def initialHandlerState : HandlerState := ⟨[], [], [], []⟩

/-- The hourly sweep over `processedMessages` (lines 257-269): delete
entries older than the retention window. -/
def cleanupProcessedMessages (now : Nat) (m : List (String × Nat)) : List (String × Nat) :=
  m.filter fun e => !(MESSAGE_EXPIRY_MS < now - e.2)

/-- One dispatch to the downstream reply dispatcher: the `MessageSid`, the
formatted and raw bodies, and the media summary of the envelope. -/
structure Dispatch where
  sid : String
  body : String
  rawBody : String
  mediaUrls : Option (List String)
  attachments : Nat

/-- An agent route. -/
structure Route where
  sessionKey : String
  accountId : String
  agentId : String

/-- A fetched (quoted) message. -/
structure QuotedMsg where
  messageId : String
  content : String
  contentType : String

/-- One message returned by the history-list API. -/
structure FeishuHistoryMessage where
  content : String
  createTime : Nat
  senderType : String
  senderId : String
  deleted : Bool

/-- The oracle environment of one `handleFeishuMessage` invocation:
`Date.now()` and every collaborator call, each fallible call returning
`Except`. -/
structure HandlerEnv where
  now : Nat
  userGet : String → Except JsErr Json
  resolveAgentRoute : Bool → String → Except JsErr Route
  enqueueResult : Except JsErr Unit
  media : MediaEnv
  getMessage : String → Except JsErr (Option QuotedMsg)
  listMessages : String → Nat → Except JsErr (List FeishuHistoryMessage × Nat)
  formatTime : Nat → String
  formatAgentEnvelope : String → String → String
  dispatchReply : Dispatch → Except JsErr Unit

/-- Result of sender-name resolution. -/
structure SenderNameResult where
  name : Option String
  permissionError : Option PermissionError

/-- `resolveFeishuSenderName` (lines 323-369): TTL cache in front of the
profile API; the internal `try` maps a permission error to a result field
and swallows everything else — the function never throws. -/
def resolveFeishuSenderName (feishuCfg : Option FeishuConfig) (senderOpenId : String)
    (env : HandlerEnv) (cache : List (String × (String × Nat))) :
    SenderNameResult × List (String × (String × Nat)) :=
  match feishuCfg with
  | none => (⟨none, none⟩, cache)
  | some _ =>
    if senderOpenId == "" then (⟨none, none⟩, cache)
    else
      let fresh : SenderNameResult × List (String × (String × Nat)) :=
        match env.userGet senderOpenId with
        | .ok res =>
          let user := jsGetOpt (jsGetOpt (some res) "data") "user"
          let name := jsOr (jsOr (jsOr (jsGetOpt user "name") (jsGetOpt user "display_name"))
            (jsGetOpt user "nickname")) (jsGetOpt user "en_name")
          match name with
          | some (.str n) =>
            if n == "" then (⟨none, none⟩, cache)
            else (⟨some n, none⟩, setAssoc cache senderOpenId (n, env.now + SENDER_NAME_TTL_MS))
          | _ => (⟨none, none⟩, cache)
        | .error e =>
          match extractPermissionError e with
          | some p => (⟨none, some p⟩, cache)
          | none => (⟨none, none⟩, cache)
      match lookupAssoc cache senderOpenId with
      | some (nm, expireAt) => if env.now < expireAt then (⟨some nm, none⟩, cache) else fresh
      | none => fresh

/-- The permission-error cooldown gate (lines 800-811): forward the error
to the agent only when the app-key's cooldown has elapsed, stamping the
notification time. -/
def trackPermissionError (appKey : String) (now : Nat) (permErr : Option PermissionError)
    (m : List (String × Nat)) : Option PermissionError × List (String × Nat) :=
  match permErr with
  | none => (none, m)
  | some p =>
    let lastNotified := (lookupAssoc m appKey).getD 0
    if PERMISSION_ERROR_COOLDOWN_MS < now - lastNotified then (some p, setAssoc m appKey now)
    else (none, m)

/-- `fetchChatHistoryForAgent` (lines 190-233): list messages in
descending recency, reverse to chronological order, drop deleted/empty
ones, format `[time] sender: content` lines. -/
def fetchChatHistoryForAgent (env : HandlerEnv) (chatId : String) (requestContent : String) :
    Except JsErr (Nat × String) := do
  let count := extractHistoryCount requestContent
  let res ← env.listMessages chatId count
  let chronological := res.1.reverse
  let formatted := String.intercalate "\n"
    ((chronological.filter fun m => !m.deleted && !(jsTrim m.content == "")).map fun m =>
      "[" ++ env.formatTime m.createTime ++ "] " ++
        (if m.senderType == "app" then "[Bot]" else m.senderId) ++ ": " ++ m.content)
  pure (res.2, formatted)

/-- The media summary attached to the envelope. -/
structure MediaPayload where
  mediaPath : Option String
  mediaType : Option String
  mediaUrl : Option String
  mediaPaths : Option (List String)
  mediaUrls : Option (List String)
  mediaTypes : Option (List String)

/-- `buildFeishuMediaPayload` (lines 698-720). -/
def buildFeishuMediaPayload (mediaList : List FeishuMediaInfo) : MediaPayload :=
  let first := mediaList.head?
  let mediaPaths := mediaList.map (·.path)
  let mediaUrls := mediaList.map fun m => m.url.getD m.path
  let types := (mediaList.map (·.contentType)).filterMap fun ct =>
    match ct with
    | some s => if s == "" then none else some s
    | none => none
  { mediaPath := first.map (·.path),
    mediaType := first.bind (·.contentType),
    mediaUrl := first.map fun f => f.url.getD f.path,
    mediaPaths := if 0 < mediaPaths.length then some mediaPaths else none,
    mediaUrls := if 0 < mediaUrls.length then some mediaUrls else none,
    mediaTypes := if 0 < types.length then some types else none }

/-! ## The dispatch phase (the `try` body of `handleFeishuMessage`,
src/outbound.ts lines 898-1225)

Everything inside the `try` can throw; a thrown error aborts the phase
but keeps the dispatches already issued (the trace accumulates alongside
the `Except` control flow, matching the mutation semantics of the
source). -/

/-- The body of the `try`: route resolution, system-event enqueue, media
resolution (current and quoted message), AI-vision attachment downloads,
on-demand history, envelope assembly, the optional permission-error
preliminary dispatch, the real dispatch, and the history-buffer clear. -/
def dispatchPhase (cfg : ClawdbotConfig) (env : HandlerEnv) (event : FeishuMessageEvent)
    (ctx : FeishuMessageContext) (isGroup : Bool) (permForAgent : Option PermissionError)
    (hasChatHistories : Bool) (historyLimit : Nat) (st : HandlerState) :
    Except JsErr Unit × HandlerState × List Dispatch :=
  match env.resolveAgentRoute isGroup (if isGroup then ctx.chatId else ctx.senderOpenId) with
  | .error e => (.error e, st, [])
  | .ok _route =>
    match env.enqueueResult with
    | .error e => (.error e, st, [])
    | .ok _ =>
      let mediaMaxBytes := ((cfg.feishu.bind (·.mediaMaxMb)).getD 30) * 1024 * 1024
      let domain := (cfg.feishu.bind (·.domain)).getD "feishu"
      let mediaList0 := resolveFeishuMediaList env.media ctx.messageId
        event.message.message_type event.message.content mediaMaxBytes domain
      -- quoted/replied message (inner try: failures log and continue)
      let quoted : Option String × Option Json × List FeishuMediaInfo :=
        match ctx.parentId with
        | none => (none, none, mediaList0)
        | some pid =>
          match env.getMessage pid with
          | .error _ => (none, none, mediaList0)
          | .ok none => (none, none, mediaList0)
          | .ok (some qm) =>
            let qik : Option Json :=
              if qm.contentType == "image" then
                match jsonParse qm.content with
                | none => none
                | some parsed =>
                  match jsGet parsed "image_key" with
                  | .ok v => v
                  | .error _ => none
              else none
            let qml := resolveFeishuMediaList env.media qm.messageId qm.contentType
              qm.content mediaMaxBytes domain
            (some qm.content, qik, mediaList0 ++ qml)
      let quotedContent := quoted.1
      let quotedImageKey := quoted.2.1
      let mediaList := quoted.2.2
      -- AI-vision attachments (each inner try logs and skips on failure)
      let a1 : Nat :=
        if optTruthy ctx.imageKey then
          match (do
            let r ← env.media.downloadResource ctx.messageId (ctx.imageKey.getD .null) "image"
            if strTruthy r.contentType then pure () else (env.media.detectMime r.buffer).map fun _ => ()
            : Except JsErr Unit) with
          | .ok _ => 1
          | .error _ => 0
        else 0
      let a2 : Nat :=
        if optTruthy quotedImageKey && ctx.parentId.isSome then
          match (do
            let r ← env.media.downloadResource (ctx.parentId.getD "")
              (quotedImageKey.getD .null) "image"
            if strTruthy r.contentType then pure () else (env.media.detectMime r.buffer).map fun _ => ()
            : Except JsErr Unit) with
          | .ok _ => 1
          | .error _ => 0
        else 0
      let attachments := a1 + a2
      let mediaPayload := buildFeishuMediaPayload mediaList
      -- on-demand chat history (inner try: failures log and continue)
      let historyContext : String :=
        if isGroup && isHistoryRequest ctx.content then
          match fetchChatHistoryForAgent env ctx.chatId ctx.content with
          | .error _ => ""
          | .ok (total, formatted) =>
            if formatted == "" then ""
            else "\n\n--- 群聊历史记录 (最近 " ++ toString total ++ " 条消息) ---\n" ++
              formatted ++ "\n--- 历史记录结束 ---\n\n"
        else ""
      -- envelope body assembly
      let messageBody1 :=
        match quotedContent with
        | some qc =>
          if qc == "" then ctx.content
          else "[Replying to: \"" ++ qc ++ "\"]\n\n" ++ ctx.content
        | none => ctx.content
      let messageBody2 := if historyContext == "" then messageBody1
        else historyContext ++ messageBody1
      let speaker := ctx.senderName.getD ctx.senderOpenId
      let messageBody3 := speaker ++ ": " ++ messageBody2
      let messageBody :=
        match ctx.mentionTargets with
        | some ts =>
          if ts.isEmpty then messageBody3
          else messageBody3 ++ "\n\n[System: Your reply will automatically @mention: " ++
            String.intercalate ", " (ts.map (·.name)) ++ ". Do not write @xxx yourself.]"
        | none => messageBody3
      let envelopeFrom := if isGroup then ctx.chatId ++ ":" ++ ctx.senderOpenId
        else ctx.senderOpenId
      -- optional permission-error preliminary dispatch
      let permStep : Except JsErr Unit × List Dispatch :=
        match permForAgent with
        | none => (.ok (), [])
        | some p =>
          let grantUrl := p.grantUrl.getD ""
          let permissionNotifyBody :=
            "[System: The bot encountered a Feishu API permission error. Please inform the user about this issue and provide the permission grant URL for the admin to authorize. Permission grant URL: " ++
              grantUrl ++ "]"
          let permissionBody := env.formatAgentEnvelope envelopeFrom permissionNotifyBody
          let d : Dispatch :=
            ⟨ctx.messageId ++ ":permission-error", permissionBody, permissionNotifyBody, none, 0⟩
          (env.dispatchReply d, [d])
      match permStep with
      | (.error e, ds) => (.error e, st, ds)
      | (.ok _, ds) =>
        let body := env.formatAgentEnvelope envelopeFrom messageBody
        let combinedBody :=
          if isGroup && !(ctx.chatId == "") && hasChatHistories then
            if historyLimit == 0 then body
            else buildPendingHistoryContext
              (((lookupAssoc st.chatHistories ctx.chatId).getD []).map fun entry =>
                env.formatAgentEnvelope (ctx.chatId ++ ":" ++ entry.sender) entry.body)
              body
          else body
        let realD : Dispatch :=
          ⟨ctx.messageId, combinedBody, ctx.content, mediaPayload.mediaUrls, attachments⟩
        let ds := ds ++ [realD]
        match env.dispatchReply realD with
        | .error e => (.error e, st, ds)
        | .ok _ =>
          let st' :=
            if isGroup && !(ctx.chatId == "") && hasChatHistories then
              { st with chatHistories := clearHistoryEntries st.chatHistories ctx.chatId historyLimit }
            else st
          (.ok (), st', ds)

/-- Policy gates and the guarded dispatch (lines 826-1228): group
allowlist / sender allowlist / mention gating with passive history
buffering, DM allowlist, then the `try`/`catch` around the dispatch
phase — a phase error is logged and swallowed. -/
def handlePolicy (cfg : ClawdbotConfig) (env : HandlerEnv) (event : FeishuMessageEvent)
    (ctx : FeishuMessageContext) (permForAgent : Option PermissionError)
    (hasChatHistories : Bool) (st : HandlerState) :
    Except JsErr Unit × HandlerState × List Dispatch :=
  let isGroup := ctx.chatType == "group"
  let historyLimit := max 0 ((cfg.feishu.bind (·.historyLimit)).getD
    (cfg.messagesGroupChatHistoryLimit.getD DEFAULT_GROUP_HISTORY_LIMIT))
  let runDispatch : HandlerState → Except JsErr Unit × HandlerState × List Dispatch :=
    fun st =>
      match dispatchPhase cfg env event ctx isGroup permForAgent hasChatHistories
          historyLimit st with
      | (.error _, st', ds) => (.ok (), st', ds)
      | (.ok _, st', ds) => (.ok (), st', ds)
  if isGroup then
    let groupPolicy := (cfg.feishu.bind (·.groupPolicy)).getD "open"
    let groupAllowFrom := (cfg.feishu.bind (·.groupAllowFrom)).getD []
    let groupConfig := resolveFeishuGroupConfig cfg.feishu ctx.chatId
    if !(isFeishuGroupAllowed groupPolicy groupAllowFrom ctx.chatId none) then (.ok (), st, [])
    else
      let senderAllowFrom := (groupConfig.bind (·.allowFrom)).getD []
      if !senderAllowFrom.isEmpty &&
          !(isFeishuGroupAllowed "allowlist" senderAllowFrom ctx.senderOpenId ctx.senderName) then
        (.ok (), st, [])
      else
        let requireMention := resolveFeishuReplyPolicy false cfg.feishu groupConfig
        if requireMention && !ctx.mentionedBot then
          let entry : HistoryEntry :=
            ⟨ctx.senderOpenId, (ctx.senderName.getD ctx.senderOpenId) ++ ": " ++ ctx.content,
             env.now, ctx.messageId⟩
          let st' :=
            if hasChatHistories then
              { st with chatHistories :=
                  recordPendingHistoryEntry st.chatHistories ctx.chatId historyLimit entry }
            else st
          (.ok (), st', [])
        else runDispatch st
  else
    let dmPolicy := (cfg.feishu.bind (·.dmPolicy)).getD "pairing"
    if dmPolicy == "allowlist" then
      let allowFrom := (cfg.feishu.bind (·.allowFrom)).getD []
      if !(resolveFeishuAllowlistMatch allowFrom ctx.senderOpenId) then (.ok (), st, [])
      else runDispatch st
    else runDispatch st

/-- Sender-name resolution and the permission cooldown (lines 789-811),
between event parsing and the policy gates. -/
def handleAfterParse (cfg : ClawdbotConfig) (env : HandlerEnv) (event : FeishuMessageEvent)
    (ctx0 : FeishuMessageContext) (hasChatHistories : Bool) (st : HandlerState) :
    Except JsErr Unit × HandlerState × List Dispatch :=
  let senderOut :=
    resolveFeishuSenderName cfg.feishu ctx0.senderOpenId env st.senderNameCache
  let st1 := { st with senderNameCache := senderOut.2 }
  let ctx :=
    match senderOut.1.name with
    | some n => { ctx0 with senderName := some n }
    | none => ctx0
  let appKey := (cfg.feishu.bind (·.appId)).getD "default"
  let permOut :=
    trackPermissionError appKey env.now senderOut.1.permissionError st1.permissionErrorNotifiedAt
  let st2 := { st1 with permissionErrorNotifiedAt := permOut.2 }
  handlePolicy cfg env event ctx permOut.1 hasChatHistories st2

/-- `handleFeishuMessage` (lines 769-1228): dedup gate, event parsing
(which can throw — it runs before the `try`), then the guarded pipeline.
Returns the propagated error (if any), the updated module state, and the
dispatches issued. -/
def handleFeishuMessage (cfg : ClawdbotConfig) (env : HandlerEnv) (event : FeishuMessageEvent)
    (botOpenId : Option String) (hasChatHistories : Bool) (st : HandlerState) :
    Except JsErr Unit × HandlerState × List Dispatch :=
  let messageId := event.message.message_id
  if (st.processedMessages.find? fun e => e.1 == messageId).isSome then (.ok (), st, [])
  else
    let st1 := { st with processedMessages := st.processedMessages ++ [(messageId, env.now)] }
    match parseFeishuMessageEvent event botOpenId with
    | .error e => (.error e, st1, [])
    | .ok ctx0 => handleAfterParse cfg env event ctx0 hasChatHistories st1

/-! ## Concrete environments and events for the handler theorems -/

/-- A benign oracle: profile lookup fails with a non-permission error, all
transport calls succeed, the envelope formatter joins `from` and `body`
with a bar. -/
def plainOkEnv (now : Nat) : HandlerEnv :=
  { now,
    userGet := fun _ => .error (.other "lookup failed"),
    resolveAgentRoute := fun _ _ => .ok ⟨"sess", "acct", "agent"⟩,
    enqueueResult := .ok (),
    media := ⟨fun _ _ _ => .error (.other "no media"), fun _ => .ok "application/octet-stream",
              fun _ _ _ _ => .error (.other "no save")⟩,
    getMessage := fun _ => .ok none,
    listMessages := fun _ _ => .ok ([], 0),
    formatTime := fun _ => "01-01 00:00",
    formatAgentEnvelope := fun f b => f ++ "|" ++ b,
    dispatchReply := fun _ => .ok () }

/-- An empty host configuration (all channel defaults apply — in
particular `dmPolicy` defaults to `pairing`, which imposes no DM gate). -/
def cfg0 : ClawdbotConfig := ⟨none, none⟩

/-- A direct-message text event with the given message id. -/
def dmTextEvent (id : String) : FeishuMessageEvent :=
  ⟨⟨some "ou_alice", none, none⟩,
   ⟨id, none, none, "oc_chat", "p2p", "text", "\x7b\"text\":\"hi\"\x7d", none⟩⟩

/-- The context `parseFeishuMessageEvent` derives from `dmTextEvent id`. -/
def dmTextCtx (id : String) : FeishuMessageContext :=
  ⟨"oc_chat", id, "ou_alice", "ou_alice", "p2p", false, none, none, "hi", "text",
   none, none, none, none⟩

/-- A direct message whose mention list carries the display name `"("`:
interpolated into `new RegExp("@" + name + "\\s*")` this is an
unterminated group. -/
def badMentionEvent : FeishuMessageEvent :=
  ⟨⟨some "ou_sender", none, none⟩,
   ⟨"m_bad", none, none, "oc_chat", "p2p", "text", "\x7b\"text\":\"hello\"\x7d",
    some [⟨"@_user_1", some "ou_user1", "("⟩]⟩⟩

/-- C2.  The claim that `handleFeishuMessage` never lets an exception
propagate fails on the code: event parsing runs *before* the `try`, and
`stripBotMention` compiles the user-controlled mention name into a
regex.  At the failing input (a mention named `"("`) the `SyntaxError`
from `new RegExp("@(\\s*", "g")` escapes the handler — after the dedup
entry was already recorded and before any dispatch. -/
theorem handleFeishuMessage_mention_regex_throws :
    handleFeishuMessage cfg0 (plainOkEnv 1000000) badMentionEvent none false initialHandlerState
      = (.error (.regexSyntax "@(\\s*"), ⟨[("m_bad", 1000000)], [], [], []⟩, []) := rfl

/-! ## C3: deduplication -/

/-- When the dedup map already holds the event's message id, the handler
returns immediately: no state change, no dispatch. -/
theorem handleFeishuMessage_dedup_hit (cfg : ClawdbotConfig) (env : HandlerEnv)
    (event : FeishuMessageEvent) (botOpenId : Option String) (hasCH : Bool) (st : HandlerState)
    (h : (st.processedMessages.find? fun e => e.1 == event.message.message_id).isSome = true) :
    handleFeishuMessage cfg env event botOpenId hasCH st = (.ok (), st, []) := by
  unfold handleFeishuMessage
  simp [h]

/-- The hourly sweep keeps an entry while it is inside the 24-hour
retention window. -/
theorem cleanup_preserves_entry (e : String) (t1 : Nat) (sweeps : List Nat)
    (h : ∀ ts ∈ sweeps, ts - t1 ≤ MESSAGE_EXPIRY_MS) :
    sweeps.foldl (fun m ts => cleanupProcessedMessages ts m) [(e, t1)] = [(e, t1)] := by
  induction sweeps with
  | nil => rfl
  | cons ts rest ih =>
    have h1 : ¬ MESSAGE_EXPIRY_MS < ts - t1 := Nat.not_lt.mpr (h ts (List.mem_cons_self ts rest))
    have step : cleanupProcessedMessages ts [(e, t1)] = [(e, t1)] := by
      simp [cleanupProcessedMessages, h1]
    simp only [List.foldl, step]
    exact ih fun x hx => h x (List.mem_cons_of_mem _ hx)

/-- C3.  For every event id `e`, invoking the handler twice with the same
`e` within the 24-hour retention window produces exactly one dispatch:
the first invocation records `e` and dispatches once; after any number of
retention sweeps whose times stay within the window of the first-seen
timestamp, the second invocation returns immediately — unchanged state,
no dispatch. -/
theorem handleFeishuMessage_dedup (e : String) (t1 t2 : Nat) (sweeps : List Nat)
    (hsw : ∀ ts ∈ sweeps, ts - t1 ≤ MESSAGE_EXPIRY_MS) :
    (handleFeishuMessage cfg0 (plainOkEnv t1) (dmTextEvent e) none false
        initialHandlerState).2.2 = [⟨e, "ou_alice|ou_alice: hi", "hi", none, 0⟩] ∧
    ∀ stMid : HandlerState,
      stMid.processedMessages =
        sweeps.foldl (fun m ts => cleanupProcessedMessages ts m)
          (handleFeishuMessage cfg0 (plainOkEnv t1) (dmTextEvent e) none false
            initialHandlerState).2.1.processedMessages →
      handleFeishuMessage cfg0 (plainOkEnv t2) (dmTextEvent e) none false stMid
        = (.ok (), stMid, []) := by
  constructor
  · rfl
  · intro stMid hmid
    have hproj : (handleFeishuMessage cfg0 (plainOkEnv t1) (dmTextEvent e) none false
        initialHandlerState).2.1.processedMessages = [(e, t1)] := rfl
    rw [hproj, cleanup_preserves_entry e t1 sweeps hsw] at hmid
    apply handleFeishuMessage_dedup_hit
    rw [hmid]
    simp [List.find?, dmTextEvent]

/-- Witness for C3 at message id `"mw"`, times 500 and 600, one sweep at
time 1000. -/
theorem handleFeishuMessage_dedup_witness :
    (handleFeishuMessage cfg0 (plainOkEnv 500) (dmTextEvent "mw") none false
        initialHandlerState).2.2 = [⟨"mw", "ou_alice|ou_alice: hi", "hi", none, 0⟩] ∧
    handleFeishuMessage cfg0 (plainOkEnv 600) (dmTextEvent "mw") none false
        ⟨[("mw", 500)], [], [], []⟩ = (.ok (), ⟨[("mw", 500)], [], [], []⟩, []) :=
  ⟨(handleFeishuMessage_dedup "mw" 500 600 [1000] (by decide)).1,
   (handleFeishuMessage_dedup "mw" 500 600 [1000] (by decide)).2
     ⟨[("mw", 500)], [], [], []⟩ rfl⟩

/-! ## C5: the permission-error cooldown -/

/-- On a fresh cooldown map, a permission error past the cooldown is
forwarded and the notification time is stamped. -/
theorem trackPermissionError_allow (k : String) (now : Nat) (p : PermissionError)
    (h : PERMISSION_ERROR_COOLDOWN_MS < now) :
    trackPermissionError k now (some p) [] = (some p, [(k, now)]) := by
  simp [trackPermissionError, lookupAssoc, setAssoc, h]

/-- Within the cooldown window of the last notification the error is
suppressed and the map unchanged. -/
theorem trackPermissionError_suppress (k : String) (t1 t2 : Nat) (p : PermissionError)
    (h : t2 - t1 ≤ PERMISSION_ERROR_COOLDOWN_MS) :
    trackPermissionError k t2 (some p) [(k, t1)] = (none, [(k, t1)]) := by
  have h' : ¬ PERMISSION_ERROR_COOLDOWN_MS < t2 - t1 := Nat.not_lt.mpr h
  simp [trackPermissionError, lookupAssoc, List.find?, h']

/-- A permission-denied API message carrying a grant URL. -/
def permMsg : String :=
  "permission denied, grant at https://open.feishu.cn/app/cli_a1b2c3 please"

/-- The permission error extracted from `permMsg`. -/
def c5PermVal : PermissionError :=
  ⟨99991672, permMsg, some "https://open.feishu.cn/app/cli_a1b2c3"⟩

/-- An oracle whose profile lookup always fails with the Feishu
permission error code 99991672. -/
def permEnv (t : Nat) : HandlerEnv :=
  { plainOkEnv t with userGet := fun _ => .error (.api (some 99991672) permMsg) }

/-- A configuration whose only populated channel field is the app key. -/
def c5Cfg (k : String) : ClawdbotConfig :=
  ⟨some ⟨some k, none, none, none, none, none, none, none, none, none⟩, none⟩

/-- The body of the preliminary permission notification for `permMsg`. -/
def notifyBody : String :=
  "[System: The bot encountered a Feishu API permission error. Please inform the user about this issue and provide the permission grant URL for the admin to authorize. Permission grant URL: https://open.feishu.cn/app/cli_a1b2c3]"

/-- The preliminary permission-notification dispatch of the first run. -/
def c5PermDispatch : Dispatch :=
  ⟨"pm1:permission-error", "ou_alice|" ++ notifyBody, notifyBody, none, 0⟩

/-- The ordinary message dispatch for message id `id`. -/
def c5RealDispatch (id : String) : Dispatch :=
  ⟨id, "ou_alice|ou_alice: hi", "hi", none, 0⟩

/-- `String.prototype.endsWith`. -/
def jsEndsWith (s sfx : String) : Bool := sfx.data.isSuffixOf s.data

/-- Is a dispatch the permission-error preliminary notification?  (Its
`MessageSid` is built as `messageId + ":permission-error"`.) -/
def isPermNotice (d : Dispatch) : Bool := jsEndsWith d.sid ":permission-error"

/-- C5.  For every app-key `k`, two permission errors captured during
sender-name resolution within the 5-minute cooldown produce exactly one
agent notification: the first invocation stamps the last-notified time
and dispatches the preliminary notification envelope before the real
envelope; the second invocation is suppressed and dispatches only the
real envelope. -/
theorem handleFeishuMessage_perm_cooldown (k : String) (t1 t2 : Nat)
    (h1 : PERMISSION_ERROR_COOLDOWN_MS < t1) (h2 : t2 - t1 ≤ PERMISSION_ERROR_COOLDOWN_MS) :
    handleFeishuMessage (c5Cfg k) (permEnv t1) (dmTextEvent "pm1") none false initialHandlerState
      = (.ok (), ⟨[("pm1", t1)], [], [(k, t1)], []⟩, [c5PermDispatch, c5RealDispatch "pm1"]) ∧
    handleFeishuMessage (c5Cfg k) (permEnv t2) (dmTextEvent "pm2") none false
        ⟨[("pm1", t1)], [], [(k, t1)], []⟩
      = (.ok (), ⟨[("pm1", t1), ("pm2", t2)], [], [(k, t1)], []⟩, [c5RealDispatch "pm2"]) ∧
    ([c5PermDispatch, c5RealDispatch "pm1"] ++ [c5RealDispatch "pm2"]).countP isPermNotice
      = 1 := by
  refine ⟨?_, ?_, by decide⟩
  · have eA : handleFeishuMessage (c5Cfg k) (permEnv t1) (dmTextEvent "pm1") none false
          initialHandlerState
        = handleAfterParse (c5Cfg k) (permEnv t1) (dmTextEvent "pm1") (dmTextCtx "pm1") false
            ⟨[("pm1", t1)], [], [], []⟩ := rfl
    have eB : handleAfterParse (c5Cfg k) (permEnv t1) (dmTextEvent "pm1") (dmTextCtx "pm1") false
          ⟨[("pm1", t1)], [], [], []⟩
        = handlePolicy (c5Cfg k) (permEnv t1) (dmTextEvent "pm1") (dmTextCtx "pm1")
            (trackPermissionError k t1 (some c5PermVal) []).1 false
            ⟨[("pm1", t1)], [], (trackPermissionError k t1 (some c5PermVal) []).2, []⟩ := rfl
    rw [eA, eB, trackPermissionError_allow k t1 c5PermVal h1]
    rfl
  · have eA : handleFeishuMessage (c5Cfg k) (permEnv t2) (dmTextEvent "pm2") none false
          ⟨[("pm1", t1)], [], [(k, t1)], []⟩
        = handleAfterParse (c5Cfg k) (permEnv t2) (dmTextEvent "pm2") (dmTextCtx "pm2") false
            ⟨[("pm1", t1), ("pm2", t2)], [], [(k, t1)], []⟩ := rfl
    have eB : handleAfterParse (c5Cfg k) (permEnv t2) (dmTextEvent "pm2") (dmTextCtx "pm2") false
          ⟨[("pm1", t1), ("pm2", t2)], [], [(k, t1)], []⟩
        = handlePolicy (c5Cfg k) (permEnv t2) (dmTextEvent "pm2") (dmTextCtx "pm2")
            (trackPermissionError k t2 (some c5PermVal) [(k, t1)]).1 false
            ⟨[("pm1", t1), ("pm2", t2)], [],
             (trackPermissionError k t2 (some c5PermVal) [(k, t1)]).2, []⟩ := rfl
    rw [eA, eB, trackPermissionError_suppress k t1 t2 c5PermVal h2]
    rfl

/-- Witness for C5 at app-key `"app123"`, times 400000 and 500000. -/
theorem handleFeishuMessage_perm_cooldown_witness :
    handleFeishuMessage (c5Cfg "app123") (permEnv 400000) (dmTextEvent "pm1") none false
        initialHandlerState
      = (.ok (), ⟨[("pm1", 400000)], [], [("app123", 400000)], []⟩,
         [c5PermDispatch, c5RealDispatch "pm1"]) ∧
    handleFeishuMessage (c5Cfg "app123") (permEnv 500000) (dmTextEvent "pm2") none false
        ⟨[("pm1", 400000)], [], [("app123", 400000)], []⟩
      = (.ok (), ⟨[("pm1", 400000), ("pm2", 500000)], [], [("app123", 400000)], []⟩,
         [c5RealDispatch "pm2"]) :=
  ⟨(handleFeishuMessage_perm_cooldown "app123" 400000 500000 (by decide) (by decide)).1,
   (handleFeishuMessage_perm_cooldown "app123" 400000 500000 (by decide) (by decide)).2.1⟩
